import Mathlib

/-!
# faas-provider bootstrap: configuration resolution and route registration

A shallow embedding of `bootstrap/v2/config.go`, `bootstrap/v2/api_server.go`
and `bootstrap/v1/serve.go`, together with the parts of the Go standard
library they call (`strconv.Atoi`, `time.ParseDuration`).

Conventions.
* A Go `string` is a Lean `String`; `len` is the length in bytes.  The library
  routines scan bytes and only ever compare them with ASCII characters, and
  every byte of a multi-byte UTF-8 sequence is at least `0x80`, so scanning
  characters classifies the input in the same way; where Go compares two
  lengths to see whether bytes were consumed, the model compares the numbers
  of characters.
* Go `int` and `int64` values are `Int`s, `uint64` values are `Nat`s; every
  operation that can leave the 64-bit range is wrapped explicitly.  The
  platform is a 64-bit one: `int` has 64 bits.
* `time.Duration` is an `int64` count of nanoseconds.
* The library routines follow `strconv/atoi.go` and `time/format.go` of the Go
  distribution, statement by statement.  The one floating-point expression of
  `time.ParseDuration`, the contribution of a fractional part, is a parameter
  `fracMul` of the model; every statement below holds for every value of it.
* A run of the bootstrap is described by what it has done when it ends
  (`Run`): credential reads, decorations, routes registered, and the outcome.
-/

namespace FaasProvider

/-! ## Machine integers -/

/-- Width of the Go `int` type (`strconv.IntSize` on a 64-bit platform). -/
def intSize : Nat := 64

/-- Largest `uint64`. -/
def maxUint64 : Nat := 2 ^ 64 - 1

/-- Largest `int64`. -/
def maxInt64 : Int := 2 ^ 63 - 1

/-- Smallest `int64`. -/
def minInt64 : Int := -(2 ^ 63)

/-- Reduction of a mathematical integer to the `int64` it is stored as
(two's complement wrap-around). -/
def wrapInt64 (x : Int) : Int := (x + 2 ^ 63) % 2 ^ 64 - 2 ^ 63

/-- Reduction of a natural number to the `uint64` it is stored as. -/
def wrapUint64 (x : Nat) : Nat := x % 2 ^ 64

/-! ## strconv -/

/-- The two error kinds of `strconv.NumError` (`ErrSyntax`, `ErrRange`). -/
inductive NumError where
  | ErrSyntax
  | ErrRange
  deriving DecidableEq, Repr

/-- Length of a Go string in bytes (`len(s)`). -/
def len (s : String) : Nat := s.utf8ByteSize

/-- The test `'0' <= c && c <= '9'`. -/
def isDigit (c : Char) : Bool := decide (48 ≤ c.toNat) && decide (c.toNat ≤ 57)

/-- The value `c - '0'` of a decimal digit. -/
def digitVal (c : Char) : Nat := c.toNat - 48

/-- Loop of `strconv.ParseUint` for base 10: `n` is the accumulator, `maxVal`
the largest value of the requested bit size.  Every byte that is not a decimal
digit ends in `ErrSyntax` (a letter gives a digit value of at least 10, which
is not below the base; an underscore is only skipped for base 0). -/
def parseUintLoop (maxVal : Nat) : List Char → Nat → Except NumError Nat
  | [], n => .ok n
  | c :: cs, n =>
    if !isDigit c then .error .ErrSyntax
    else if n ≥ maxUint64 / 10 + 1 then .error .ErrRange
    else
      let n10 := wrapUint64 (n * 10)
      let n1 := wrapUint64 (n10 + digitVal c)
      if n1 < n10 ∨ n1 > maxVal then .error .ErrRange
      else parseUintLoop maxVal cs n1

/-- The call `strconv.ParseUint(s, 10, 0)`, on the bytes of `s`. -/
def ParseUint (s : List Char) : Except NumError Nat :=
  if s = [] then .error .ErrSyntax
  else parseUintLoop (2 ^ intSize - 1) s 0

/-- The call `strconv.ParseInt(s, 10, 0)`, on the bytes of `s`.  On a range
error Go also returns a clamped value; callers that test the error never look
at it, so only the error is kept. -/
def ParseInt (s : List Char) : Except NumError Int :=
  match s with
  | [] => .error .ErrSyntax
  | c :: cs =>
    let neg := c = '-'
    let body := if c = '+' ∨ c = '-' then cs else c :: cs
    match ParseUint body with
    | .error e => .error e
    | .ok un =>
      let cutoff : Nat := 2 ^ (intSize - 1)
      if ¬ neg ∧ un ≥ cutoff then .error .ErrRange
      else if neg ∧ un > cutoff then .error .ErrRange
      else .ok (if neg then -(un : Int) else (un : Int))

/-- Loop of the fast path of `strconv.Atoi`: `n = n*10 + int(ch)` on an `int`. -/
def atoiFastLoop : List Char → Int → Except NumError Int
  | [], n => .ok n
  | c :: cs, n =>
    if !isDigit c then .error .ErrSyntax
    else atoiFastLoop cs (wrapInt64 (n * 10 + (digitVal c : Int)))

/-- The function `strconv.Atoi`: short inputs take the fast path, all others go
through `ParseInt(s, 10, 0)`. -/
def Atoi (s : String) : Except NumError Int :=
  let sLen := len s
  if 0 < sLen ∧ sLen < 19 then
    match s.data with
    | [] => .error .ErrSyntax
    | c :: cs =>
      let body := if c = '-' ∨ c = '+' then cs else c :: cs
      if (c = '-' ∨ c = '+') ∧ body.length < 1 then .error .ErrSyntax
      else
        match atoiFastLoop body 0 with
        | .error e => .error e
        | .ok n => .ok (if c = '-' then wrapInt64 (-n) else n)
  else ParseInt s.data

/-- Value of a string of decimal digits read most significant digit first,
starting from the value `n` already read: a mathematical integer, with no
bound. -/
def digitsValue : List Char → Nat → Nat
  | [], n => n
  | c :: cs, n => digitsValue cs (n * 10 + digitVal c)

/-- The integer a base-10 numeral denotes, as a mathematical integer: an
optional sign `+` or `-`, then one or more decimal digits and nothing else.
This is the reading of "parses as a base-10 integer" that `Atoi` is compared
with; it has no range limit. -/
def decimalInt? (s : String) : Option Int :=
  match s.data with
  | [] => none
  | c :: cs =>
    let body := if c = '+' ∨ c = '-' then cs else c :: cs
    if body ≠ [] ∧ body.all isDigit = true then
      some (if c = '-' then -(digitsValue body 0 : Int) else (digitsValue body 0 : Int))
    else none

/-! ## time -/

/-- The constant `time.Second`, in nanoseconds. -/
def Second : Int := 1000000000

/-- The constant `time.Minute`, in nanoseconds. -/
def Minute : Int := 60 * Second

/-- Ways `time.ParseDuration` fails.  `outOfFuel` is not a Go error: it marks
the exhaustion of the iteration bound of `parseDurationLoop`, which
`parseDurationLoop_fuel` shows is never reached from `ParseDuration`. -/
inductive DurationError where
  | invalidDuration
  | missingUnit
  | unknownUnit
  | outOfFuel
  deriving DecidableEq, Repr

/-- The table `time.unitMap`: nanoseconds per unit. -/
def unitMap (u : String) : Option Nat :=
  if u = "ns" then some 1
  else if u = "us" then some 1000
  else if u = "\u00b5s" then some 1000
  else if u = "\u03bcs" then some 1000
  else if u = "ms" then some 1000000
  else if u = "s" then some 1000000000
  else if u = "m" then some 60000000000
  else if u = "h" then some 3600000000000
  else none

/-- The function `time.leadingInt`: the leading run of digits as a `uint64`,
and the rest of the input; `none` is `errLeadingInt` (overflow). -/
def leadingInt : List Char → Nat → Option (Nat × List Char)
  | [], x => some (x, [])
  | c :: cs, x =>
    if !isDigit c then some (x, c :: cs)
    else if x > 2 ^ 63 / 10 then none
    else
      let x1 := wrapUint64 (x * 10 + c.toNat - 48)
      if x1 > 2 ^ 63 then none
      else leadingInt cs x1

/-- The function `time.leadingFraction`: the leading run of digits as a
`uint64` numerator `x` and a power of ten `scale` (a `float64` in Go; powers
of ten up to `1e19` are exact there), and the rest of the input.  Digits past
an overflow are consumed and ignored. -/
def leadingFraction : List Char → Nat → Nat → Bool → Nat × Nat × List Char
  | [], x, scale, _ => (x, scale, [])
  | c :: cs, x, scale, overflow =>
    if !isDigit c then (x, scale, c :: cs)
    else if overflow then leadingFraction cs x scale overflow
    else if x > (2 ^ 63 - 1) / 10 then leadingFraction cs x scale true
    else
      let y := wrapUint64 (x * 10 + c.toNat - 48)
      if y > 2 ^ 63 then leadingFraction cs x scale true
      else leadingFraction cs y (scale * 10) false

/-- The test that ends a unit name: `c == '.' || '0' <= c && c <= '9'`. -/
def endsUnit (c : Char) : Bool := c = '.' || isDigit c

/-- The block `Consume (\.[0-9]*)?` of `time.ParseDuration`: when the input
starts with a period, the fraction after it.  The result is `f`, `scale`, the
rest of the input and `post`, whether a digit was consumed after the period;
without a period `f = 0`, `scale = 1` and `post = false`. -/
def consumeFraction (s : List Char) : Nat × Nat × List Char × Bool :=
  match s with
  | [] => (0, 1, s, false)
  | c :: t =>
    if c = '.' then
      let r := leadingFraction t 0 1 false
      (r.1, r.2.1, r.2.2, decide (t.length ≠ r.2.2.length))
    else (0, 1, s, false)

/-- The loop `for s != "" { ... }` of `time.ParseDuration`, with the running
total `d`.  Each round reads one `number unit` group.  `fracMul f unit scale`
stands for the floating-point product
`uint64(float64(f) * (float64(unit) / scale))`, which is left as a parameter;
`addToTotal` is the end of a round, `d += v` with its overflow check, reached
with or without a fraction.  The first argument bounds the number of rounds. -/
def parseDurationLoop (fracMul : Nat → Nat → Nat → Nat) :
    Nat → List Char → Nat → Except DurationError Nat
  | 0, _, _ => .error .outOfFuel
  | fuel + 1, s, d =>
    match s with
    | [] => .ok d
    | c :: _ =>
      if !endsUnit c then .error .invalidDuration
      else
        match leadingInt s 0 with
        | none => .error .invalidDuration
        | some (v, s1) =>
          let pre := s.length ≠ s1.length
          let frac := consumeFraction s1
          let f := frac.1
          let scale := frac.2.1
          let s2 := frac.2.2.1
          let post := frac.2.2.2
          if !decide pre && !post then .error .invalidDuration
          else
            let u := s2.takeWhile (fun c => !endsUnit c)
            let s3 := s2.dropWhile (fun c => !endsUnit c)
            if u.length = 0 then .error .missingUnit
            else
              match unitMap (String.mk u) with
              | none => .error .unknownUnit
              | some unit =>
                if v > 2 ^ 63 / unit then .error .invalidDuration
                else
                  let v1 := wrapUint64 (v * unit)
                  let addToTotal : Nat → Except DurationError Nat := fun v2 =>
                    let d1 := wrapUint64 (d + v2)
                    if d1 > 2 ^ 63 then .error .invalidDuration
                    else parseDurationLoop fracMul fuel s3 d1
                  if f > 0 then
                    let v2 := wrapUint64 (v1 + wrapUint64 (fracMul f unit scale))
                    if v2 > 2 ^ 63 then .error .invalidDuration
                    else addToTotal v2
                  else addToTotal v1

/-- The function `time.ParseDuration`: an optional sign, then either the
single digit `0` or one or more `number unit` groups.  The result is a
`Duration`, an `int64` count of nanoseconds. -/
def ParseDuration (fracMul : Nat → Nat → Nat → Nat) (s : String) :
    Except DurationError Int :=
  let signed : Bool × List Char :=
    match s.data with
    | [] => (false, [])
    | c :: cs => if c = '-' ∨ c = '+' then (decide (c = '-'), cs) else (false, c :: cs)
  let neg := signed.1
  let rest := signed.2
  if rest = ['0'] then .ok 0
  else if rest = [] then .error .invalidDuration
  else
    match parseDurationLoop fracMul (rest.length + 1) rest 0 with
    | .error e => .error e
    | .ok d =>
      if neg then .ok (wrapInt64 (-(wrapInt64 (d : Int))))
      else if d > 2 ^ 63 - 1 then .error .invalidDuration
      else .ok (wrapInt64 (d : Int))

/-! ## bootstrap/v2/config.go -/

/-- The struct `ApiServerConfig`. -/
structure ApiServerConfig where
  ServerPort : Int
  EnableHealth : Bool
  EnableBasicAuth : Bool
  SecretMountPath : String
  HTTPProbe : Bool
  SetNonRootUser : Bool
  ReadinessProbeInitialDelaySeconds : Int
  ReadinessProbeTimeoutSeconds : Int
  ReadinessProbePeriodSeconds : Int
  LivenessProbeInitialDelaySeconds : Int
  LivenessProbeTimeoutSeconds : Int
  LivenessProbePeriodSeconds : Int
  ReadTimeout : Int
  WriteTimeout : Int
  ImagePullPolicy : String
  FunctionPort : Int
  deriving DecidableEq, Repr

/-- The process environment behind `os.Getenv`: the value of each variable
that is set. -/
structure OsEnv where
  vars : String → Option String

/-- The method `OsEnv.Getenv`: as `os.Getenv`, the value of the variable, or
the empty string when it is not set. -/
def OsEnv.Getenv (e : OsEnv) (key : String) : String :=
  match e.vars key with
  | some v => v
  | none => ""

/-- The function `parseIntValue`. -/
def parseIntValue (val : String) (fallback : Int) : Int :=
  if len val > 0 then
    match Atoi val with
    | .ok parsedVal => if parsedVal ≥ 0 then parsedVal else fallback
    | .error _ => fallback
  else fallback

/-- The tail of `parseIntOrDurationValue`, reached when the integer reading
did not return: `time.ParseDuration(val)`, or the fallback on error. -/
def parseDurationOrFallback (fracMul : Nat → Nat → Nat → Nat) (val : String)
    (fallback : Int) : Int :=
  match ParseDuration fracMul val with
  | .error _ => fallback
  | .ok duration => duration

/-- The function `parseIntOrDurationValue`.  The product
`time.Duration(parsedVal) * time.Second` is an `int64` multiplication. -/
def parseIntOrDurationValue (fracMul : Nat → Nat → Nat → Nat) (val : String)
    (fallback : Int) : Int :=
  if len val > 0 then
    match Atoi val with
    | .ok parsedVal =>
      if parsedVal ≥ 0 then wrapInt64 (parsedVal * Second)
      else parseDurationOrFallback fracMul val fallback
    | .error _ => parseDurationOrFallback fracMul val fallback
  else parseDurationOrFallback fracMul val fallback

/-- The function `parseBoolValue`. -/
def parseBoolValue (val : String) (fallback : Bool) : Bool :=
  if len val > 0 then decide (val = "true") else fallback

/-- The function `parseString`. -/
def parseString (val : String) (fallback : String) : String :=
  if len val > 0 then val else fallback

/-- The function `ReadConfig`, as a function of the process environment.  The
fields it never assigns, `EnableBasicAuth` and `SecretMountPath`, keep the
zero value they have in the freshly allocated struct; the result is the
struct `cfg` points to. -/
def ReadConfig (fracMul : Nat → Nat → Nat → Nat) (hasEnv : OsEnv) : ApiServerConfig :=
  let httpProbe := parseBoolValue (hasEnv.Getenv "http_probe") false
  let setNonRootUser := parseBoolValue (hasEnv.Getenv "set_nonroot_user") false
  let readinessProbeInitialDelaySeconds :=
    parseIntValue (hasEnv.Getenv "readiness_probe_initial_delay_seconds") 3
  let readinessProbeTimeoutSeconds :=
    parseIntValue (hasEnv.Getenv "readiness_probe_timeout_seconds") 1
  let readinessProbePeriodSeconds :=
    parseIntValue (hasEnv.Getenv "readiness_probe_period_seconds") 10
  let livenessProbeInitialDelaySeconds :=
    parseIntValue (hasEnv.Getenv "liveness_probe_initial_delay_seconds") 3
  let livenessProbeTimeoutSeconds :=
    parseIntValue (hasEnv.Getenv "liveness_probe_timeout_seconds") 1
  let livenessProbePeriodSeconds :=
    parseIntValue (hasEnv.Getenv "liveness_probe_period_seconds") 10
  let readTimeout :=
    parseIntOrDurationValue fracMul (hasEnv.Getenv "read_timeout") (wrapInt64 (Second * 10))
  let writeTimeout :=
    parseIntOrDurationValue fracMul (hasEnv.Getenv "write_timeout") (wrapInt64 (Second * 10))
  let imagePullPolicy := parseString (hasEnv.Getenv "image_pull_policy") "Always"
  let defaultTCPPort : Int := 8080
  { ReadTimeout := readTimeout
    WriteTimeout := writeTimeout
    HTTPProbe := httpProbe
    SetNonRootUser := setNonRootUser
    ReadinessProbeInitialDelaySeconds := readinessProbeInitialDelaySeconds
    ReadinessProbeTimeoutSeconds := readinessProbeTimeoutSeconds
    ReadinessProbePeriodSeconds := readinessProbePeriodSeconds
    LivenessProbeInitialDelaySeconds := livenessProbeInitialDelaySeconds
    LivenessProbeTimeoutSeconds := livenessProbeTimeoutSeconds
    LivenessProbePeriodSeconds := livenessProbePeriodSeconds
    ImagePullPolicy := imagePullPolicy
    ServerPort := parseIntValue (hasEnv.Getenv "port") defaultTCPPort
    FunctionPort := 8080
    EnableHealth := true
    EnableBasicAuth := false
    SecretMountPath := "" }

/-- The integer keys `ReadConfig` reads, each with its fallback and the field
it resolves. -/
def integerKeys : List (String × Int × (ApiServerConfig → Int)) :=
  [ ("port", 8080, fun c => c.ServerPort),
    ("readiness_probe_initial_delay_seconds", 3, fun c => c.ReadinessProbeInitialDelaySeconds),
    ("readiness_probe_timeout_seconds", 1, fun c => c.ReadinessProbeTimeoutSeconds),
    ("readiness_probe_period_seconds", 10, fun c => c.ReadinessProbePeriodSeconds),
    ("liveness_probe_initial_delay_seconds", 3, fun c => c.LivenessProbeInitialDelaySeconds),
    ("liveness_probe_timeout_seconds", 1, fun c => c.LivenessProbeTimeoutSeconds),
    ("liveness_probe_period_seconds", 10, fun c => c.LivenessProbePeriodSeconds) ]

/-- The boolean keys `ReadConfig` reads, each with its fallback and the field
it resolves. -/
def booleanKeys : List (String × Bool × (ApiServerConfig → Bool)) :=
  [ ("http_probe", false, fun c => c.HTTPProbe),
    ("set_nonroot_user", false, fun c => c.SetNonRootUser) ]

/-- The configuration the specification documents as the fallback defaults. -/
def defaultConfig : ApiServerConfig :=
  { ServerPort := 8080
    EnableHealth := true
    EnableBasicAuth := false
    SecretMountPath := ""
    HTTPProbe := false
    SetNonRootUser := false
    ReadinessProbeInitialDelaySeconds := 3
    ReadinessProbeTimeoutSeconds := 1
    ReadinessProbePeriodSeconds := 10
    LivenessProbeInitialDelaySeconds := 3
    LivenessProbeTimeoutSeconds := 1
    LivenessProbePeriodSeconds := 10
    ReadTimeout := 10 * 1000000000
    WriteTimeout := 10 * 1000000000
    ImagePullPolicy := "Always"
    FunctionPort := 8080 }

/-- The twelve keys `ReadConfig` reads. -/
def readKeys : List String :=
  [ "http_probe", "set_nonroot_user",
    "readiness_probe_initial_delay_seconds", "readiness_probe_timeout_seconds",
    "readiness_probe_period_seconds",
    "liveness_probe_initial_delay_seconds", "liveness_probe_timeout_seconds",
    "liveness_probe_period_seconds",
    "read_timeout", "write_timeout", "image_pull_policy", "port" ]

/-! ## Router, server and the outcome of a start-up

Handlers (`http.HandlerFunc` values) are values of an arbitrary type `H`,
credentials of an arbitrary type `C`, errors of the credential reader of an
arbitrary type `E`.  The two functions of package `auth/v1` that the bootstrap
calls, `ReadBasicAuthFromDisk.Read` and `DecorateWithBasicAuth`, are parameters
`Read` and `Decorate`. -/

/-- A route of a `mux.Router`: its path template, its method matcher (`none`
when `Methods` was never called on it, so that every method matches) and its
handler. -/
structure Route (H : Type) where
  path : String
  methods : Option (List String)
  handler : H
  deriving DecidableEq, Repr

/-- A `mux.Router`, as the list of its routes in registration order. -/
abbrev Router (H : Type) := List (Route H)

/-- The function `mux.NewRouter`: a router with no route. -/
def NewRouter {H : Type} : Router H := []

/-- The method `Router.HandleFunc(path, f)`: registers a new route, with no
method matcher, after the existing ones. -/
def Router.HandleFunc {H : Type} (r : Router H) (path : String) (f : H) : Router H :=
  r ++ [{ path := path, methods := none, handler := f }]

/-- The method `Route.Methods(ms...)`, called on the route `HandleFunc` has
just registered, which is the last one of the router. -/
def Router.Methods {H : Type} (r : Router H) (ms : List String) : Router H :=
  match r.reverse with
  | [] => []
  | rt :: rest => (rest.reverse) ++ [{ rt with methods := some ms }]

/-- The constants `http.MethodGet`, `http.MethodPut`, `http.MethodPost` and
`http.MethodDelete`. -/
def MethodGet : String := "GET"

/-- See `MethodGet`. -/
def MethodPut : String := "PUT"

/-- See `MethodGet`. -/
def MethodPost : String := "POST"

/-- See `MethodGet`. -/
def MethodDelete : String := "DELETE"

/-- The constant `http.DefaultMaxHeaderBytes` (1 MB). -/
def DefaultMaxHeaderBytes : Int := 2 ^ 20

/-- The fields of `http.Server` that the bootstrap sets. -/
structure Server (H : Type) where
  Addr : String
  ReadTimeout : Int
  WriteTimeout : Int
  MaxHeaderBytes : Int
  Handler : Router H
  deriving DecidableEq, Repr

/-- How a start-up ends.
* `returned err`: the function returned `err` from its own check;
* `fatal err`: `log.Fatal(err)` on the credential error, the process exits;
* `nilDereference`: a field of a nil pointer was read, the process panics;
* `listening s`: `s.ListenAndServe()` was called on the constructed server
  (it blocks, and whatever it returns comes from the transport). -/
inductive Outcome (H E : Type) where
  | returned (err : String)
  | fatal (err : E)
  | nilDereference
  | listening (s : Server H)

/-- What a start-up has done when it ends: the handler set its pointer now
points to (`none` for a nil pointer), the routes of the router, the mount
paths of the credential reads made, the calls of `DecorateWithBasicAuth` made
(handler and credentials passed, in order), and how it ended. -/
structure Run (HS H C E : Type) where
  handlers : Option HS
  router : Router H
  reads : List String
  decorations : List (H × C)
  outcome : Outcome H E

/-- The ten handler roles of the provider. -/
inductive Slot where
  | FunctionReader
  | DeployHandler
  | DeleteHandler
  | UpdateHandler
  | ReplicaReader
  | ReplicaUpdater
  | InfoHandler
  | SecretHandler
  | FunctionProxy
  | Health
  deriving DecidableEq, Repr

/-- An entry of the route catalog of the specification: path pattern, method
set (`none` for any method) and the role it is bound to. -/
structure RouteEntry where
  path : String
  methods : Option (List String)
  slot : Slot
  deriving DecidableEq, Repr

/-- The route catalog as the specification lists it, with the `/healthz`
entry present exactly when `enableHealth` holds. -/
def catalog (enableHealth : Bool) : List RouteEntry :=
  [ ⟨"/system/functions", some ["GET"], .FunctionReader⟩,
    ⟨"/system/functions", some ["POST"], .DeployHandler⟩,
    ⟨"/system/functions", some ["DELETE"], .DeleteHandler⟩,
    ⟨"/system/functions", some ["PUT"], .UpdateHandler⟩,
    ⟨"/system/function/\x7bname:[-a-zA-Z_0-9]+\x7d", some ["GET"], .ReplicaReader⟩,
    ⟨"/system/scale-function/\x7bname:[-a-zA-Z_0-9]+\x7d", some ["POST"], .ReplicaUpdater⟩,
    ⟨"/system/info", some ["GET"], .InfoHandler⟩,
    ⟨"/system/secrets", some ["GET", "PUT", "POST", "DELETE"], .SecretHandler⟩,
    ⟨"/function/\x7bname:[-a-zA-Z_0-9]+\x7d", none, .FunctionProxy⟩,
    ⟨"/function/\x7bname:[-a-zA-Z_0-9]+\x7d/", none, .FunctionProxy⟩,
    ⟨"/function/\x7bname:[-a-zA-Z_0-9]+\x7d/\x7bparams:.*\x7d", none, .FunctionProxy⟩ ]
  ++ (if enableHealth then [⟨"/healthz", some ["GET"], .Health⟩] else [])

/-- Two method sets overlap when some request method matches both: an absent
matcher matches every method. -/
def methodsOverlap : Option (List String) → Option (List String) → Bool
  | none, _ => true
  | _, none => true
  | some a, some b => a.any (fun m => b.contains m)

/-- No two distinct entries of the list share a path pattern and have
overlapping method sets. -/
def methodDisjoint (es : List RouteEntry) : Bool :=
  (List.range es.length).all fun i =>
    (List.range es.length).all fun j =>
      match es.get? i, es.get? j with
      | some a, some b => i = j || a.path ≠ b.path || !methodsOverlap a.methods b.methods
      | _, _ => true

/-- The eight protected roles, in the order the bootstrap decorates them: all
roles but `FunctionProxy` and `Health`. -/
def protectedSlots : List Slot :=
  [ .FunctionReader, .DeployHandler, .DeleteHandler, .UpdateHandler,
    .ReplicaReader, .ReplicaUpdater, .InfoHandler, .SecretHandler ]

/-- The binding the specification's catalog entry `e` stands for, given the
handler of each role. -/
def RouteEntry.bind {H : Type} (slot : Slot → H) (e : RouteEntry) : Route H :=
  { path := e.path, methods := e.methods, handler := slot e.slot }

/-- The router a call was given: the argument, or a new router for nil. -/
def routerOf {H : Type} (r : Option (Router H)) : Router H :=
  match r with
  | none => NewRouter
  | some r => r

namespace V2

/-- The struct `ApiServerHandlers` of `bootstrap/v2/api_server.go`. -/
structure ApiServerHandlers (H : Type) where
  FunctionReader : H
  DeployHandler : H
  DeleteHandler : H
  ReplicaReader : H
  ReplicaUpdater : H
  SecretHandler : H
  FunctionProxy : H
  UpdateHandler : H
  Health : H
  InfoHandler : H
  deriving DecidableEq, Repr

/-- The handler a role names in a handler set. -/
def ApiServerHandlers.slot {H : Type} (hs : ApiServerHandlers H) : Slot → H
  | .FunctionReader => hs.FunctionReader
  | .DeployHandler => hs.DeployHandler
  | .DeleteHandler => hs.DeleteHandler
  | .UpdateHandler => hs.UpdateHandler
  | .ReplicaReader => hs.ReplicaReader
  | .ReplicaUpdater => hs.ReplicaUpdater
  | .InfoHandler => hs.InfoHandler
  | .SecretHandler => hs.SecretHandler
  | .FunctionProxy => hs.FunctionProxy
  | .Health => hs.Health

/-- The struct `ApiServer`; `Handlers` is a pointer, `none` when nil. -/
structure ApiServer (H : Type) where
  Config : ApiServerConfig
  Handlers : Option (ApiServerHandlers H)

/-- The function `NewApiServer`. -/
def NewApiServer {H : Type} (fracMul : Nat → Nat → Nat → Nat) (env : OsEnv) : ApiServer H :=
  { Config := ReadConfig fracMul env, Handlers := none }

/-- The part of `ListenAndServe` from the comment `System (auth) endpoints`
on: the route registrations on `r` and the construction of the server. -/
def bindAndListen {H C E : Type} (cfg : ApiServerConfig) (hs : ApiServerHandlers H)
    (r : Router H) (reads : List String) (decorations : List (H × C)) :
    Run (ApiServerHandlers H) H C E :=
  let r := (r.HandleFunc "/system/functions" hs.FunctionReader).Methods ["GET"]
  let r := (r.HandleFunc "/system/functions" hs.DeployHandler).Methods ["POST"]
  let r := (r.HandleFunc "/system/functions" hs.DeleteHandler).Methods ["DELETE"]
  let r := (r.HandleFunc "/system/functions" hs.UpdateHandler).Methods ["PUT"]
  let r := (r.HandleFunc "/system/function/\x7bname:[-a-zA-Z_0-9]+\x7d" hs.ReplicaReader).Methods
    ["GET"]
  let r := (r.HandleFunc "/system/scale-function/\x7bname:[-a-zA-Z_0-9]+\x7d"
    hs.ReplicaUpdater).Methods ["POST"]
  let r := (r.HandleFunc "/system/info" hs.InfoHandler).Methods ["GET"]
  let r := (r.HandleFunc "/system/secrets" hs.SecretHandler).Methods
    [MethodGet, MethodPut, MethodPost, MethodDelete]
  let r := r.HandleFunc "/function/\x7bname:[-a-zA-Z_0-9]+\x7d" hs.FunctionProxy
  let r := r.HandleFunc "/function/\x7bname:[-a-zA-Z_0-9]+\x7d/" hs.FunctionProxy
  let r := r.HandleFunc "/function/\x7bname:[-a-zA-Z_0-9]+\x7d/\x7bparams:.*\x7d" hs.FunctionProxy
  let r := if cfg.EnableHealth then (r.HandleFunc "/healthz" hs.Health).Methods ["GET"] else r
  let s : Server H :=
    { Addr := ":" ++ toString cfg.ServerPort
      ReadTimeout := cfg.ReadTimeout
      WriteTimeout := cfg.WriteTimeout
      MaxHeaderBytes := DefaultMaxHeaderBytes
      Handler := r }
  { handlers := some hs, router := r, reads := reads, decorations := decorations,
    outcome := .listening s }

/-- The method `ApiServer.ListenAndServe`.  The argument `r` is `none` for a
nil router. -/
def ListenAndServe {H C E : Type} (Read : String → Except E C) (Decorate : H → C → H)
    (srv : ApiServer H) (r : Option (Router H)) : Run (ApiServerHandlers H) H C E :=
  let r : Router H :=
    match r with
    | none => NewRouter
    | some r => r
  match srv.Handlers with
  | none =>
    { handlers := none, router := r, reads := [], decorations := [],
      outcome := .returned "API handlers are missing" }
  | some hs =>
    if srv.Config.EnableBasicAuth then
      match Read srv.Config.SecretMountPath with
      | .error err =>
        { handlers := some hs, router := r, reads := [srv.Config.SecretMountPath],
          decorations := [], outcome := .fatal err }
      | .ok credentials =>
        let h1 := { hs with FunctionReader := Decorate hs.FunctionReader credentials }
        let h2 := { h1 with DeployHandler := Decorate h1.DeployHandler credentials }
        let h3 := { h2 with DeleteHandler := Decorate h2.DeleteHandler credentials }
        let h4 := { h3 with UpdateHandler := Decorate h3.UpdateHandler credentials }
        let h5 := { h4 with ReplicaReader := Decorate h4.ReplicaReader credentials }
        let h6 := { h5 with ReplicaUpdater := Decorate h5.ReplicaUpdater credentials }
        let h7 := { h6 with InfoHandler := Decorate h6.InfoHandler credentials }
        let h8 := { h7 with SecretHandler := Decorate h7.SecretHandler credentials }
        bindAndListen srv.Config h8 r [srv.Config.SecretMountPath]
          [(hs.FunctionReader, credentials), (h1.DeployHandler, credentials),
           (h2.DeleteHandler, credentials), (h3.UpdateHandler, credentials),
           (h4.ReplicaReader, credentials), (h5.ReplicaUpdater, credentials),
           (h6.InfoHandler, credentials), (h7.SecretHandler, credentials)]
    else bindAndListen srv.Config hs r [] []

end V2

namespace V1

/-- Modelled from the spec: the package `types/v1` that `bootstrap/v1/serve.go`
imports is not among the sources.  The struct `FaaSHandlers` has the ten
handler slots of the specification, which are the fields `Serve` reads and the
fields `types/v2/config.go` declares for the struct of the same name. -/
structure FaaSHandlers (H : Type) where
  FunctionReader : H
  DeployHandler : H
  FunctionProxy : H
  DeleteHandler : H
  ReplicaReader : H
  ReplicaUpdater : H
  SecretHandler : H
  UpdateHandler : H
  Health : H
  InfoHandler : H
  deriving DecidableEq, Repr

/-- The handler a role names in a handler set. -/
def FaaSHandlers.slot {H : Type} (hs : FaaSHandlers H) : Slot → H
  | .FunctionReader => hs.FunctionReader
  | .DeployHandler => hs.DeployHandler
  | .DeleteHandler => hs.DeleteHandler
  | .UpdateHandler => hs.UpdateHandler
  | .ReplicaReader => hs.ReplicaReader
  | .ReplicaUpdater => hs.ReplicaUpdater
  | .InfoHandler => hs.InfoHandler
  | .SecretHandler => hs.SecretHandler
  | .FunctionProxy => hs.FunctionProxy
  | .Health => hs.Health

/-- Modelled from the spec: the package `types/v1` that `bootstrap/v1/serve.go`
imports is not among the sources.  The struct `FaaSConfig` has the fields
`Serve` reads, with the types `types/v2/config.go` declares for the struct of
the same name; `TCPPort` is a pointer, `none` when nil. -/
structure FaaSConfig where
  TCPPort : Option Int
  ReadTimeout : Int
  WriteTimeout : Int
  EnableHealth : Bool
  EnableBasicAuth : Bool
  SecretMountPath : String
  deriving DecidableEq, Repr

/-- The part of `Serve` from the comment `System (auth) endpoints` on: the
route registrations on the package router `r` and the construction of the
server, for a non-nil handler set. -/
def bindAndListen {H C E : Type} (config : FaaSConfig) (handlers : FaaSHandlers H)
    (r : Router H) (reads : List String) (decorations : List (H × C)) :
    Run (FaaSHandlers H) H C E :=
  let r := (r.HandleFunc "/system/functions" handlers.FunctionReader).Methods ["GET"]
  let r := (r.HandleFunc "/system/functions" handlers.DeployHandler).Methods ["POST"]
  let r := (r.HandleFunc "/system/functions" handlers.DeleteHandler).Methods ["DELETE"]
  let r := (r.HandleFunc "/system/functions" handlers.UpdateHandler).Methods ["PUT"]
  let r := (r.HandleFunc "/system/function/\x7bname:[-a-zA-Z_0-9]+\x7d"
    handlers.ReplicaReader).Methods ["GET"]
  let r := (r.HandleFunc "/system/scale-function/\x7bname:[-a-zA-Z_0-9]+\x7d"
    handlers.ReplicaUpdater).Methods ["POST"]
  let r := (r.HandleFunc "/system/info" handlers.InfoHandler).Methods ["GET"]
  let r := (r.HandleFunc "/system/secrets" handlers.SecretHandler).Methods
    [MethodGet, MethodPut, MethodPost, MethodDelete]
  let r := r.HandleFunc "/function/\x7bname:[-a-zA-Z_0-9]+\x7d" handlers.FunctionProxy
  let r := r.HandleFunc "/function/\x7bname:[-a-zA-Z_0-9]+\x7d/" handlers.FunctionProxy
  let r := r.HandleFunc "/function/\x7bname:[-a-zA-Z_0-9]+\x7d/\x7bparams:.*\x7d"
    handlers.FunctionProxy
  let r :=
    if config.EnableHealth then (r.HandleFunc "/healthz" handlers.Health).Methods ["GET"] else r
  let readTimeout := config.ReadTimeout
  let writeTimeout := config.WriteTimeout
  let tcpPort : Int :=
    match config.TCPPort with
    | some p => p
    | none => 8080
  let s : Server H :=
    { Addr := ":" ++ toString tcpPort
      ReadTimeout := readTimeout
      WriteTimeout := writeTimeout
      MaxHeaderBytes := DefaultMaxHeaderBytes
      Handler := r }
  { handlers := some handlers, router := r, reads := reads, decorations := decorations,
    outcome := .listening s }

/-- The function `Serve`.  Both arguments are pointers, `none` when nil; `r` is
the state of the package-level router when `Serve` is called.  The first read
through a nil pointer panics: `config.EnableBasicAuth` for a nil `config`,
`handlers.FunctionReader` for a nil `handlers` (in the first decoration when
basic auth is on, in the first registration otherwise, in both cases before
the call it is an argument of). -/
def Serve {H C E : Type} (Read : String → Except E C) (Decorate : H → C → H)
    (handlers : Option (FaaSHandlers H)) (config : Option FaaSConfig) (r : Router H) :
    Run (FaaSHandlers H) H C E :=
  match config with
  | none =>
    { handlers := handlers, router := r, reads := [], decorations := [],
      outcome := .nilDereference }
  | some config =>
    if config.EnableBasicAuth then
      match Read config.SecretMountPath with
      | .error err =>
        { handlers := handlers, router := r, reads := [config.SecretMountPath],
          decorations := [], outcome := .fatal err }
      | .ok credentials =>
        match handlers with
        | none =>
          { handlers := none, router := r, reads := [config.SecretMountPath],
            decorations := [], outcome := .nilDereference }
        | some hs =>
          let h1 := { hs with FunctionReader := Decorate hs.FunctionReader credentials }
          let h2 := { h1 with DeployHandler := Decorate h1.DeployHandler credentials }
          let h3 := { h2 with DeleteHandler := Decorate h2.DeleteHandler credentials }
          let h4 := { h3 with UpdateHandler := Decorate h3.UpdateHandler credentials }
          let h5 := { h4 with ReplicaReader := Decorate h4.ReplicaReader credentials }
          let h6 := { h5 with ReplicaUpdater := Decorate h5.ReplicaUpdater credentials }
          let h7 := { h6 with InfoHandler := Decorate h6.InfoHandler credentials }
          let h8 := { h7 with SecretHandler := Decorate h7.SecretHandler credentials }
          bindAndListen config h8 r [config.SecretMountPath]
            [(hs.FunctionReader, credentials), (h1.DeployHandler, credentials),
             (h2.DeleteHandler, credentials), (h3.UpdateHandler, credentials),
             (h4.ReplicaReader, credentials), (h5.ReplicaUpdater, credentials),
             (h6.InfoHandler, credentials), (h7.SecretHandler, credentials)]
    else
      match handlers with
      | none =>
        { handlers := none, router := r, reads := [], decorations := [],
          outcome := .nilDereference }
      | some hs => bindAndListen config hs r [] []

end V1

/-! ## Sample inputs

Concrete handler sets, configurations and credential readers, on which the
general statements below are instantiated.  Handlers are named by strings. -/

/-- A v2 handler set with ten distinct handlers. -/
def sampleHandlers : V2.ApiServerHandlers String :=
  { FunctionReader := "reader", DeployHandler := "deploy", DeleteHandler := "delete",
    ReplicaReader := "replicas", ReplicaUpdater := "scale", SecretHandler := "secrets",
    FunctionProxy := "proxy", UpdateHandler := "update", Health := "health",
    InfoHandler := "info" }

/-- A v1 handler set with ten distinct handlers. -/
def sampleFaaSHandlers : V1.FaaSHandlers String :=
  { FunctionReader := "reader", DeployHandler := "deploy", FunctionProxy := "proxy",
    DeleteHandler := "delete", ReplicaReader := "replicas", ReplicaUpdater := "scale",
    SecretHandler := "secrets", UpdateHandler := "update", Health := "health",
    InfoHandler := "info" }

/-- A v2 configuration with basic auth on. -/
def authConfig : ApiServerConfig :=
  { defaultConfig with EnableBasicAuth := true, SecretMountPath := "/var/secrets" }

/-- A v1 configuration with basic auth on. -/
def authFaaSConfig : V1.FaaSConfig :=
  { TCPPort := none, ReadTimeout := 10 * 1000000000, WriteTimeout := 10 * 1000000000,
    EnableHealth := true, EnableBasicAuth := true, SecretMountPath := "/var/secrets" }

/-- A v1 configuration with basic auth off. -/
def openFaaSConfig : V1.FaaSConfig :=
  { authFaaSConfig with EnableBasicAuth := false }

/-- A credential reader that fails: no secret is mounted. -/
def readFails : String → Except String (String × String) :=
  fun _ => .error "unable to load basic-auth-user"

/-- A credential reader that succeeds. -/
def readSucceeds : String → Except String (String × String) :=
  fun _ => .ok ("admin", "password")

/-- A decoration that marks the handler it wraps. -/
def sampleDecorate : String → String × String → String :=
  fun next c => "auth:" ++ c.1 ++ ":" ++ next

/-! ## Theorems -/

theorem digitVal_le_nine {c : Char} (h : isDigit c = true) : digitVal c ≤ 9 := by
  simp only [isDigit, Bool.and_eq_true, decide_eq_true_eq] at h
  unfold digitVal
  omega

theorem le_digitsValue (cs : List Char) (n : Nat) : n ≤ digitsValue cs n := by
  induction cs generalizing n with
  | nil => simp [digitsValue]
  | cons c cs ih =>
    have := ih (n * 10 + digitVal c)
    simp only [digitsValue]
    omega

theorem digitsValue_lt (cs : List Char) (n : Nat) (h : cs.all isDigit = true) :
    digitsValue cs n < (n + 1) * 10 ^ cs.length := by
  induction cs generalizing n with
  | nil => simp [digitsValue]
  | cons c cs ih =>
    simp only [List.all_cons, Bool.and_eq_true] at h
    have hd := digitVal_le_nine h.1
    have h1 := ih (n * 10 + digitVal c) h.2
    have h2 : (n * 10 + digitVal c + 1) * 10 ^ cs.length ≤ (n + 1) * 10 * 10 ^ cs.length :=
      Nat.mul_le_mul_right _ (by omega)
    simp only [digitsValue, List.length_cons, pow_succ]
    calc digitsValue cs (n * 10 + digitVal c)
        < (n * 10 + digitVal c + 1) * 10 ^ cs.length := h1
      _ ≤ (n + 1) * 10 * 10 ^ cs.length := h2
      _ = (n + 1) * (10 ^ cs.length * 10) := by ring

theorem parseUintLoop_digits (cs : List Char) (n : Nat) (h : cs.all isDigit = true)
    (hn : n ≤ maxUint64) :
    parseUintLoop maxUint64 cs n =
      if digitsValue cs n ≤ maxUint64 then .ok (digitsValue cs n) else .error .ErrRange := by
  induction cs generalizing n with
  | nil => simp [parseUintLoop, digitsValue, hn]
  | cons c cs ih =>
    simp only [List.all_cons, Bool.and_eq_true] at h
    have hd := digitVal_le_nine h.1
    have hmono := le_digitsValue cs (n * 10 + digitVal c)
    have hM : maxUint64 = 18446744073709551615 := by norm_num [maxUint64]
    rw [hM] at hn ih ⊢
    simp only [parseUintLoop, h.1, digitsValue, wrapUint64, hM, Bool.not_true,
      Bool.false_eq_true, if_false]
    norm_num only
    by_cases hc : 1844674407370955162 ≤ n
    · have : ¬ digitsValue cs (n * 10 + digitVal c) ≤ 18446744073709551615 := by omega
      rw [if_pos hc, if_neg this]
    · have h10 : n * 10 % 18446744073709551616 = n * 10 := Nat.mod_eq_of_lt (by omega)
      rw [if_neg hc, h10]
      by_cases hov : n * 10 + digitVal c ≤ 18446744073709551615
      · have h11 : (n * 10 + digitVal c) % 18446744073709551616 = n * 10 + digitVal c :=
          Nat.mod_eq_of_lt (by omega)
        have hno : ¬ (n * 10 + digitVal c < n * 10 ∨
            18446744073709551615 < n * 10 + digitVal c) := by omega
        rw [h11, if_neg hno]
        exact ih _ h.2 hov
      · have h11 : (n * 10 + digitVal c) % 18446744073709551616 < n * 10 := by omega
        have : ¬ digitsValue cs (n * 10 + digitVal c) ≤ 18446744073709551615 := by omega
        rw [if_pos (Or.inl h11), if_neg this]

theorem parseUintLoop_ok_digits (m : Nat) (cs : List Char) (n v : Nat)
    (h : parseUintLoop m cs n = .ok v) : cs.all isDigit = true := by
  induction cs generalizing n with
  | nil => rfl
  | cons c cs ih =>
    simp only [parseUintLoop] at h
    split at h
    · cases h
    · rename_i hd
      split at h
      · cases h
      · split at h
        · cases h
        · simp only [Bool.not_eq_true, Bool.not_eq_false_eq_eq_true] at hd
          simp [hd, ih _ h]

theorem wrapInt64_of_range {x : Int} (h1 : -(2 ^ 63) ≤ x) (h2 : x < 2 ^ 63) :
    wrapInt64 x = x := by
  unfold wrapInt64
  omega

theorem atoiFastLoop_ok_digits (cs : List Char) (n v : Int)
    (h : atoiFastLoop cs n = .ok v) : cs.all isDigit = true := by
  induction cs generalizing n with
  | nil => rfl
  | cons c cs ih =>
    simp only [atoiFastLoop] at h
    split at h
    · cases h
    · rename_i hd
      simp only [Bool.not_eq_true, Bool.not_eq_false_eq_eq_true] at hd
      simp [hd, ih _ h]

theorem atoiFastLoop_digits (cs : List Char) (n : Nat) (h : cs.all isDigit = true)
    (hb : digitsValue cs n < 2 ^ 63) :
    atoiFastLoop cs (n : Int) = .ok ((digitsValue cs n : Nat) : Int) := by
  induction cs generalizing n with
  | nil => simp [atoiFastLoop, digitsValue]
  | cons c cs ih =>
    simp only [List.all_cons, Bool.and_eq_true] at h
    have hmono := le_digitsValue cs (n * 10 + digitVal c)
    simp only [digitsValue] at hb ⊢
    have hw : wrapInt64 ((n : Int) * 10 + (digitVal c : Int)) = ((n * 10 + digitVal c : Nat) : Int) := by
      rw [wrapInt64_of_range] <;> push_cast <;> omega
    simp only [atoiFastLoop, h.1, Bool.not_true, Bool.false_eq_true, if_false, hw]
    exact ih _ h.2 hb

theorem length_le_utf8Len (cs : List Char) : cs.length ≤ String.utf8Len cs := by
  induction cs with
  | nil => simp
  | cons c cs ih =>
    have := Char.utf8Size_pos c
    simp only [List.length_cons, String.utf8Len_cons]
    omega

theorem digitsValue_lt_of_short (cs : List Char) (h : cs.all isDigit = true)
    (hl : cs.length ≤ 18) : digitsValue cs 0 < 10 ^ 18 := by
  have h1 := digitsValue_lt cs 0 h
  have h2 : 10 ^ cs.length ≤ 10 ^ 18 := Nat.pow_le_pow_right (by norm_num) hl
  omega

theorem ParseUint_digits (cs : List Char) (hne : cs ≠ []) (h : cs.all isDigit = true) :
    ParseUint cs =
      if digitsValue cs 0 ≤ maxUint64 then .ok (digitsValue cs 0) else .error .ErrRange := by
  have h2 : 2 ^ intSize - 1 = maxUint64 := rfl
  simp only [ParseUint, hne, if_false, h2]
  exact parseUintLoop_digits cs 0 h (by simp [maxUint64])

theorem ParseUint_ok_digits (cs : List Char) (v : Nat) (h : ParseUint cs = .ok v) :
    cs ≠ [] ∧ cs.all isDigit = true := by
  unfold ParseUint at h
  split at h
  · cases h
  · rename_i hne
    exact ⟨hne, parseUintLoop_ok_digits _ _ _ _ h⟩

theorem ParseInt_ok_iff (c : Char) (cs : List Char) (n : Int) :
    ParseInt (c :: cs) = .ok n ↔
      decimalInt? ⟨c :: cs⟩ = some n ∧ minInt64 ≤ n ∧ n ≤ maxInt64 := by
  simp only [ParseInt, decimalInt?, intSize, minInt64, maxInt64]
  generalize hbody : (if c = '+' ∨ c = '-' then cs else c :: cs) = body
  by_cases hd : body ≠ [] ∧ body.all isDigit = true
  · rw [ParseUint_digits body hd.1 hd.2, if_pos hd]
    have hM : maxUint64 = 18446744073709551615 := by norm_num [maxUint64]
    rw [hM]
    by_cases hr : digitsValue body 0 ≤ 18446744073709551615
    · simp only [hr, if_true]
      by_cases hneg : c = '-'
      · simp only [hneg, if_true, not_true, false_and, if_false, true_and, gt_iff_lt,
          Option.some.injEq]
        split
        · constructor
          · intro h; cases h
          · rintro ⟨rfl, h1, h2⟩; omega
        · constructor
          · intro h
            injection h with h
            subst h
            exact ⟨rfl, by omega, by omega⟩
          · rintro ⟨rfl, -, -⟩; rfl
      · simp only [hneg, if_false, not_false_eq_true, true_and, false_and, ge_iff_le,
          Option.some.injEq]
        split
        · constructor
          · intro h; cases h
          · rintro ⟨rfl, h1, h2⟩; omega
        · constructor
          · intro h
            injection h with h
            subst h
            exact ⟨rfl, by omega, by omega⟩
          · rintro ⟨rfl, -, -⟩; rfl
    · simp only [hr, if_false]
      constructor
      · intro h; cases h
      · rintro ⟨h, h1, h2⟩
        injection h with h
        subst h
        by_cases hneg : c = '-'
        · simp only [hneg, if_true] at h1 h2; omega
        · simp only [hneg, if_false] at h1 h2; omega
  · rw [if_neg hd]
    constructor
    · intro h
      cases hp : ParseUint body with
      | error e => rw [hp] at h; cases h
      | ok v => exact absurd (ParseUint_ok_digits body v hp) hd
    · rintro ⟨h, -⟩; cases h

theorem atoiFast_ok_iff (c : Char) (cs : List Char) (n : Int)
    (hlen : String.utf8Len (c :: cs) < 19)
    (hne : (if c = '-' ∨ c = '+' then cs else c :: cs) ≠ []) :
    (match atoiFastLoop (if c = '-' ∨ c = '+' then cs else c :: cs) 0 with
      | .error e => (Except.error e : Except NumError Int)
      | .ok m => .ok (if c = '-' then wrapInt64 (-m) else m)) = .ok n ↔
      decimalInt? ⟨c :: cs⟩ = some n ∧ minInt64 ≤ n ∧ n ≤ maxInt64 := by
  have hl := length_le_utf8Len (c :: cs)
  simp only [decimalInt?, minInt64, maxInt64]
  have hb : (if c = '+' ∨ c = '-' then cs else c :: cs) =
      (if c = '-' ∨ c = '+' then cs else c :: cs) := by
    by_cases h1 : c = '-' <;> by_cases h2 : c = '+' <;> simp [h1, h2]
  rw [hb]
  revert hne
  generalize hbody : (if c = '-' ∨ c = '+' then cs else c :: cs) = body
  intro hne
  have hbl : body.length ≤ 18 := by
    rw [← hbody]
    simp only [List.length_cons] at hl
    split
    · omega
    · simp only [List.length_cons]; omega
  by_cases hd : body.all isDigit = true
  · have hv := digitsValue_lt_of_short body hd hbl
    have hfast := atoiFastLoop_digits body 0 hd (by omega)
    simp only [Nat.cast_zero] at hfast
    rw [hfast, if_pos ⟨hne, hd⟩]
    have hw : wrapInt64 (-((digitsValue body 0 : Nat) : Int)) =
        -((digitsValue body 0 : Nat) : Int) := by
      rw [wrapInt64_of_range] <;> omega
    simp only [hw, Option.some.injEq]
    constructor
    · intro h
      injection h with h
      subst h
      refine ⟨rfl, ?_, ?_⟩ <;> split <;> omega
    · rintro ⟨rfl, -, -⟩; rfl
  · rw [if_neg (fun h => hd h.2)]
    constructor
    · intro h
      cases hp : atoiFastLoop body 0 with
      | error e => rw [hp] at h; cases h
      | ok v => exact absurd (atoiFastLoop_ok_digits body 0 v hp) hd
    · rintro ⟨h, -⟩; cases h

/-- The function `Atoi` succeeds with `n` exactly when the input is a base-10 numeral whose
value `n` lies in the `int` range. -/
theorem Atoi_ok_iff (s : String) (n : Int) :
    Atoi s = .ok n ↔ decimalInt? s = some n ∧ minInt64 ≤ n ∧ n ≤ maxInt64 := by
  obtain ⟨cs⟩ := s
  cases cs with
  | nil =>
    simp [Atoi, len, ParseInt, decimalInt?]
  | cons c cs =>
    simp only [Atoi, len, String.utf8ByteSize_mk]
    by_cases hfast : 0 < String.utf8Len (c :: cs) ∧ String.utf8Len (c :: cs) < 19
    · rw [if_pos hfast]
      by_cases hsign : (c = '-' ∨ c = '+') ∧
          (if c = '-' ∨ c = '+' then cs else c :: cs).length < 1
      · rw [if_pos hsign]
        have hcs : cs = [] := by
          have h2 := hsign.2
          rw [if_pos hsign.1] at h2
          exact List.eq_nil_of_length_eq_zero (by omega)
        have hb : (if c = '+' ∨ c = '-' then cs else c :: cs) = [] := by
          rw [if_pos hsign.1.symm, hcs]
        simp only [decimalInt?, hb, ne_eq, not_true_eq_false, false_and, if_false]
        constructor
        · intro h; cases h
        · rintro ⟨h, -⟩; cases h
      · rw [if_neg hsign]
        apply atoiFast_ok_iff c cs n hfast.2
        intro hnil
        by_cases hs : c = '-' ∨ c = '+'
        · exact hsign ⟨hs, by rw [hnil]; simp⟩
        · rw [if_neg hs] at hnil; cases hnil
    · rw [if_neg hfast]
      exact ParseInt_ok_iff c cs n

theorem len_pos_iff (s : String) : len s > 0 ↔ s.data ≠ [] := by
  obtain ⟨cs⟩ := s
  simp only [len, String.utf8ByteSize_mk, gt_iff_lt, Nat.pos_iff_ne_zero, ne_eq,
    String.utf8Len_eq_zero]

theorem len_pos_of_decimalInt {s : String} {n : Int} (h : decimalInt? s = some n) :
    len s > 0 := by
  rw [len_pos_iff]
  intro hnil
  simp [decimalInt?, hnil] at h

theorem Atoi_not_ok_of_not_decimal {s : String}
    (h : ∀ n, decimalInt? s = some n → ¬ (0 ≤ n ∧ n ≤ maxInt64)) (n : Int)
    (hn : Atoi s = .ok n) : ¬ 0 ≤ n := by
  intro h0
  have := (Atoi_ok_iff s n).1 hn
  exact h n this.1 ⟨h0, this.2.2⟩

theorem parseIntValue_eq (val : String) (fallback : Int) :
    parseIntValue val fallback =
      match decimalInt? val with
      | some n => if 0 ≤ n ∧ n ≤ maxInt64 then n else fallback
      | none => fallback := by
  unfold parseIntValue
  cases hd : decimalInt? val with
  | none =>
    simp only
    split
    · cases ha : Atoi val with
      | error e => rfl
      | ok m =>
        have := (Atoi_ok_iff val m).1 ha
        rw [hd] at this
        cases this.1
    · rfl
  | some n =>
    simp only
    rw [if_pos (len_pos_of_decimalInt hd)]
    by_cases hr : minInt64 ≤ n ∧ n ≤ maxInt64
    · have ha := (Atoi_ok_iff val n).2 ⟨hd, hr⟩
      rw [ha]
      simp only [ge_iff_le]
      by_cases h0 : 0 ≤ n
      · rw [if_pos h0, if_pos ⟨h0, hr.2⟩]
      · rw [if_neg h0, if_neg (fun h => h0 h.1)]
    · cases ha : Atoi val with
      | error e =>
        simp only
        have : ¬ (0 ≤ n ∧ n ≤ maxInt64) := by
          intro h
          apply hr
          refine ⟨?_, h.2⟩
          have := h.1
          simp only [minInt64]
          omega
        rw [if_neg this]
      | ok m =>
        have := (Atoi_ok_iff val m).1 ha
        rw [hd] at this
        injection this.1 with hmn
        subst hmn
        exact absurd this.2 hr

/-- C1: `parseIntValue(val, fallback)` returns `n` when `val` is a base-10
numeral whose value `n` is non-negative and within the `int` range, and
returns `fallback` in every other case (empty, not a numeral, out of range,
negative); for each of the seven integer keys `ReadConfig` reads, a negative
numeral resolves to the key's fallback, never to the negative value. -/
theorem parseIntValue_spec (fracMul : Nat → Nat → Nat → Nat) (env : OsEnv) (val : String)
    (fallback : Int) :
    (∀ n, decimalInt? val = some n → 0 ≤ n → n ≤ maxInt64 → parseIntValue val fallback = n) ∧
    ((∀ n, decimalInt? val = some n → ¬ (0 ≤ n ∧ n ≤ maxInt64)) →
      parseIntValue val fallback = fallback) ∧
    (∀ k ∈ integerKeys,
      k.2.2 (ReadConfig fracMul env) = parseIntValue (env.Getenv k.1) k.2.1 ∧
      ∀ n, decimalInt? (env.Getenv k.1) = some n → n < 0 →
        k.2.2 (ReadConfig fracMul env) = k.2.1) ∧
    parseIntValue "-1" fallback = fallback := by
  have hneg : ∀ (v : String) (fb n : Int), decimalInt? v = some n → n < 0 →
      parseIntValue v fb = fb := by
    intro v fb n hd hn
    rw [parseIntValue_eq, hd]
    simp only
    rw [if_neg (fun h => by omega)]
  refine ⟨?_, ?_, ?_, ?_⟩
  · intro n hd h0 hr
    rw [parseIntValue_eq, hd]
    simp only
    rw [if_pos ⟨h0, hr⟩]
  · intro h
    rw [parseIntValue_eq]
    cases hd : decimalInt? val with
    | none => rfl
    | some n =>
      simp only
      rw [if_neg (h n hd)]
  · intro k hk
    simp only [integerKeys, List.mem_cons, List.mem_singleton, List.not_mem_nil, or_false] at hk
    rcases hk with rfl | rfl | rfl | rfl | rfl | rfl | rfl <;>
      exact ⟨rfl, fun n hd hn => hneg _ _ n hd hn⟩
  · exact hneg "-1" fallback (-1) (by decide) (by decide)

/-- Witness for C1: the value `"42"` resolves to 42 and the value `"-1"` to the fallback. -/
theorem parseIntValue_spec_witness :
    parseIntValue "42" 8080 = 42 ∧ parseIntValue "-1" 8080 = 8080 :=
  ⟨(parseIntValue_spec (fun _ _ _ => 0) ⟨fun _ => none⟩ "42" 8080).1 42 (by decide) (by decide)
      (by decide),
   (parseIntValue_spec (fun _ _ _ => 0) ⟨fun _ => none⟩ "-1" 8080).2.1 (by
      intro n h
      have h1 : decimalInt? "-1" = some (-1) := by decide
      rw [h1] at h
      injection h with h
      subst h
      decide)⟩

theorem parseIntOrDurationValue_of_decimal (fracMul : Nat → Nat → Nat → Nat) (val : String)
    (fallback n : Int) (hd : decimalInt? val = some n) (h0 : 0 ≤ n) (hr : n ≤ maxInt64) :
    parseIntOrDurationValue fracMul val fallback = wrapInt64 (n * Second) := by
  have ha : Atoi val = .ok n :=
    (Atoi_ok_iff val n).2 ⟨hd, by simp only [minInt64]; omega, hr⟩
  unfold parseIntOrDurationValue
  rw [if_pos (len_pos_of_decimalInt hd), ha]
  simp only [ge_iff_le]
  rw [if_pos h0]

/-- Up to the largest number of seconds a `time.Duration` can hold,
`n ≤ 9223372036`, a value that is a base-10 numeral of a non-negative `n`
resolves to exactly `n` seconds, whatever the fallback and the duration
syntax. -/
theorem parseIntOrDurationValue_seconds_in_range (fracMul : Nat → Nat → Nat → Nat)
    (val : String) (fallback n : Int) (hd : decimalInt? val = some n) (h0 : 0 ≤ n)
    (hr : n ≤ 9223372036) :
    parseIntOrDurationValue fracMul val fallback = n * 1000000000 := by
  rw [parseIntOrDurationValue_of_decimal fracMul val fallback n hd h0
    (by simp only [maxInt64]; omega)]
  simp only [Second]
  exact wrapInt64_of_range (by omega) (by omega)

set_option maxRecDepth 4000 in
/-- C2, the code at the failing input: the value `"9223372037"` is the
numeral of the non-negative integer 9223372037, `Atoi` accepts it, and
`parseIntOrDurationValue` returns the negative duration -9223372036709551616
nanoseconds instead of 9223372037 seconds: the `int64` product with
`time.Second` overflows and is not checked.  The sibling branch does check:
`"9223372037s"` is an overflow error of `time.ParseDuration` and resolves to
the fallback, as does a numeral beyond the `int` range.  The guard
`parsedVal >= 0` does not keep the result non-negative:
`"9223372036854775807"` resolves to minus one second. -/
theorem parseIntOrDurationValue_overflow :
    decimalInt? "9223372037" = some 9223372037 ∧
    Atoi "9223372037" = .ok 9223372037 ∧
    parseIntOrDurationValue (fun _ _ _ => 0) "9223372037" 10000000000 =
      -9223372036709551616 ∧
    parseIntOrDurationValue (fun _ _ _ => 0) "9223372037" 10000000000 ≠
      9223372037 * 1000000000 ∧
    ParseDuration (fun _ _ _ => 0) "9223372037s" = .error .invalidDuration ∧
    parseIntOrDurationValue (fun _ _ _ => 0) "9223372037s" 10000000000 = 10000000000 ∧
    parseIntOrDurationValue (fun _ _ _ => 0) "9223372036854775808" 10000000000 =
      10000000000 ∧
    parseIntOrDurationValue (fun _ _ _ => 0) "9223372036854775807" 10000000000 =
      -1000000000 := by
  refine ⟨by decide, by rfl, by rfl, ?_, by rfl, by rfl, by rfl, by rfl⟩
  have h : parseIntOrDurationValue (fun _ _ _ => 0) "9223372037" 10000000000 =
      -9223372036709551616 := by
    rfl
  rw [h]
  decide

theorem parseIntOrDurationValue_of_not_decimal (fracMul : Nat → Nat → Nat → Nat)
    (val : String) (fallback : Int)
    (h : ∀ n, decimalInt? val = some n → ¬ (0 ≤ n ∧ n ≤ maxInt64)) :
    parseIntOrDurationValue fracMul val fallback =
      parseDurationOrFallback fracMul val fallback := by
  unfold parseIntOrDurationValue
  split
  · cases ha : Atoi val with
    | error e => rfl
    | ok m =>
      simp only [ge_iff_le]
      rw [if_neg (Atoi_not_ok_of_not_decimal h m ha)]
  · rfl

set_option maxRecDepth 4000 in
/-- C3: for a value that is not a base-10 numeral of a non-negative integer
within the `int` range (the empty value included), `parseIntOrDurationValue`
is the result of `time.ParseDuration` when it succeeds and the fallback when
it fails; `"2m"` gives two minutes, and `"abc"`, the empty value and `"-5"`
give the fallback. -/
theorem parseIntOrDurationValue_duration (fracMul : Nat → Nat → Nat → Nat) (val : String)
    (fallback : Int)
    (h : ∀ n, decimalInt? val = some n → ¬ (0 ≤ n ∧ n ≤ maxInt64)) :
    (∀ d, ParseDuration fracMul val = .ok d →
      parseIntOrDurationValue fracMul val fallback = d) ∧
    (∀ e, ParseDuration fracMul val = .error e →
      parseIntOrDurationValue fracMul val fallback = fallback) ∧
    parseIntOrDurationValue fracMul "2m" fallback = 2 * Minute ∧
    parseIntOrDurationValue fracMul "abc" fallback = fallback ∧
    parseIntOrDurationValue fracMul "" fallback = fallback ∧
    parseIntOrDurationValue fracMul "-5" fallback = fallback := by
  have hmain := parseIntOrDurationValue_of_not_decimal fracMul val fallback h
  refine ⟨?_, ?_, ?_, ?_, ?_, ?_⟩
  · intro d hd
    rw [hmain, parseDurationOrFallback, hd]
  · intro e he
    rw [hmain, parseDurationOrFallback, he]
  · rfl
  · rfl
  · rfl
  · have h5 : decimalInt? "-5" = some (-5) := by decide
    rw [parseIntOrDurationValue_of_not_decimal]
    · rfl
    · intro n hn
      rw [h5] at hn
      injection hn with hn
      subst hn
      decide

/-- Witness for C3: `"2m"` is not an integer numeral and resolves to what
`time.ParseDuration` gives for it, two minutes. -/
theorem parseIntOrDurationValue_duration_witness :
    parseIntOrDurationValue (fun _ _ _ => 0) "2m" 5 = 120000000000 :=
  (parseIntOrDurationValue_duration (fun _ _ _ => 0) "2m" 5 (by
    intro n h
    have h1 : decimalInt? "2m" = none := by decide
    rw [h1] at h
    cases h)).1 120000000000 (by rfl)

theorem leadingInt_length (s : List Char) (x v : Nat) (s1 : List Char)
    (h : leadingInt s x = some (v, s1)) : s1.length ≤ s.length := by
  induction s generalizing x with
  | nil =>
    simp only [leadingInt, Option.some.injEq, Prod.mk.injEq] at h
    rw [← h.2]
  | cons c cs ih =>
    simp only [leadingInt] at h
    split at h
    · simp only [Option.some.injEq, Prod.mk.injEq] at h
      rw [← h.2]
    · split at h
      · cases h
      · split at h
        · cases h
        · have := ih _ h
          simp only [List.length_cons]
          omega

theorem leadingFraction_length (s : List Char) (x scale : Nat) (o : Bool) :
    (leadingFraction s x scale o).2.2.length ≤ s.length := by
  induction s generalizing x scale o with
  | nil => simp [leadingFraction]
  | cons c cs ih =>
    simp only [leadingFraction]
    split
    · simp
    · split
      · have := ih x scale o
        simp only [List.length_cons]
        omega
      · split
        · have := ih x scale true
          simp only [List.length_cons]
          omega
        · split
          · have := ih x scale true
            simp only [List.length_cons]
            omega
          · have := ih (wrapUint64 (x * 10 + c.toNat - 48)) (scale * 10) false
            simp only [List.length_cons]
            omega

theorem consumeFraction_length (s : List Char) :
    (consumeFraction s).2.2.1.length ≤ s.length := by
  unfold consumeFraction
  split
  · simp
  · rename_i c t
    split
    · have := leadingFraction_length t 0 1 false
      simp only [List.length_cons]
      omega
    · simp

theorem takeWhile_dropWhile_length (p : Char → Bool) (s : List Char) :
    (s.takeWhile p).length + (s.dropWhile p).length = s.length := by
  rw [← List.length_append, List.takeWhile_append_dropWhile]

/-- The iteration bound of `parseDurationLoop` is never reached when it exceeds
the length of the input: every round consumes at least one byte. -/
theorem parseDurationLoop_fuel (fracMul : Nat → Nat → Nat → Nat) (fuel : Nat)
    (s : List Char) (d : Nat) (h : s.length < fuel) :
    parseDurationLoop fracMul fuel s d ≠ .error .outOfFuel := by
  induction fuel generalizing s d with
  | zero => omega
  | succ fuel ih =>
    unfold parseDurationLoop
    cases s with
    | nil => simp
    | cons c cs =>
      simp only
      split
      · simp
      · split
        · simp
        · rename_i v s1 hli
          have h1 := leadingInt_length _ _ _ _ hli
          have h2 := consumeFraction_length s1
          have h3 := takeWhile_dropWhile_length (fun c => !endsUnit c) (consumeFraction s1).2.2.1
          generalize consumeFraction s1 = frac at h2 h3 ⊢
          split
          · simp
          · split
            · simp
            · rename_i hu
              have hlt : (List.dropWhile (fun c => !endsUnit c) frac.2.2.1).length < fuel := by
                omega
              split
              · simp
              · split
                · simp
                · split
                  · split
                    · simp
                    · split
                      · simp
                      · exact ih _ _ hlt
                  · split
                    · simp
                    · exact ih _ _ hlt

/-- The function `time.ParseDuration` never ends on the iteration bound of the
model: it returns a duration or one of the errors of the Go function. -/
theorem ParseDuration_total (fracMul : Nat → Nat → Nat → Nat) (s : String) :
    ParseDuration fracMul s ≠ .error .outOfFuel := by
  unfold ParseDuration
  simp only
  split
  · simp
  · split
    · simp
    · generalize hr : (match s.data with
        | [] => (false, [])
        | c :: cs => if c = '-' ∨ c = '+' then (decide (c = '-'), cs) else (false, c :: cs)) = r
      have := parseDurationLoop_fuel fracMul (r.2.length + 1) r.2 0 (by omega)
      cases hp : parseDurationLoop fracMul (r.2.length + 1) r.2 0 with
      | error e =>
        simp only
        intro he
        injection he with he
        exact this (by rw [hp, he])
      | ok d =>
        simp only
        split
        · simp
        · split <;> simp

theorem len_pos_iff_ne_empty (s : String) : len s > 0 ↔ s ≠ "" := by
  rw [len_pos_iff]
  obtain ⟨cs⟩ := s
  constructor
  · intro h he
    apply h
    rw [he]
  · intro h he
    apply h
    simp only at he
    rw [he]

theorem Getenv_of_unset_or_empty (env : OsEnv) (k : String)
    (h : env.vars k = none ∨ env.vars k = some "") : env.Getenv k = "" := by
  unfold OsEnv.Getenv
  rcases h with h | h <;> rw [h]

theorem parseBoolValue_eq (val : String) (fallback : Bool) :
    parseBoolValue val fallback = if val = "" then fallback else decide (val = "true") := by
  unfold parseBoolValue
  by_cases h : val = ""
  · rw [if_pos h, if_neg]
    rw [len_pos_iff_ne_empty]
    exact fun hne => hne h
  · rw [if_neg h, if_pos ((len_pos_iff_ne_empty val).2 h)]

/-- C4: for each boolean key `ReadConfig` reads (`http_probe`,
`set_nonroot_user`) and every environment, the field is true when the value
is exactly `"true"`, false for any other non-empty value (such as `"TRUE"`,
`"1"`, `"yes"`), and the fallback given to `parseBoolValue`, which is false
for both keys, when the variable is unset or empty. -/
theorem parseBoolValue_spec (fracMul : Nat → Nat → Nat → Nat) (env : OsEnv) :
    (∀ k ∈ booleanKeys,
      (env.vars k.1 = some "true" → k.2.2 (ReadConfig fracMul env) = true) ∧
      (∀ v, env.vars k.1 = some v → v ≠ "" → v ≠ "true" →
        k.2.2 (ReadConfig fracMul env) = false) ∧
      (env.vars k.1 = none ∨ env.vars k.1 = some "" →
        k.2.2 (ReadConfig fracMul env) = k.2.1) ∧
      k.2.2 (ReadConfig fracMul env) = parseBoolValue (env.Getenv k.1) k.2.1 ∧
      k.2.1 = false) ∧
    booleanKeys.map (fun k => k.1) = ["http_probe", "set_nonroot_user"] ∧
    (∀ fallback, parseBoolValue "true" fallback = true ∧
      parseBoolValue "TRUE" fallback = false ∧
      parseBoolValue "1" fallback = false ∧
      parseBoolValue "yes" fallback = false ∧
      parseBoolValue "" fallback = fallback) := by
  have key : ∀ (k : String) (fb : Bool),
      (env.vars k = some "true" → parseBoolValue (env.Getenv k) fb = true) ∧
      (∀ v, env.vars k = some v → v ≠ "" → v ≠ "true" →
        parseBoolValue (env.Getenv k) fb = false) ∧
      (env.vars k = none ∨ env.vars k = some "" → parseBoolValue (env.Getenv k) fb = fb) := by
    intro k fb
    refine ⟨?_, ?_, ?_⟩
    · intro h
      rw [parseBoolValue_eq]
      simp only [OsEnv.Getenv, h]
      rfl
    · intro v h hne hnt
      rw [parseBoolValue_eq]
      simp only [OsEnv.Getenv, h]
      rw [if_neg hne]
      exact decide_eq_false hnt
    · intro h
      rw [Getenv_of_unset_or_empty env k h, parseBoolValue_eq, if_pos rfl]
  refine ⟨?_, rfl, ?_⟩
  · intro k hk
    simp only [booleanKeys, List.mem_cons, List.mem_singleton, List.not_mem_nil, or_false] at hk
    rcases hk with rfl | rfl
    · exact ⟨(key _ _).1, (key _ _).2.1, (key _ _).2.2, rfl, rfl⟩
    · exact ⟨(key _ _).1, (key _ _).2.1, (key _ _).2.2, rfl, rfl⟩
  · intro fallback
    refine ⟨?_, ?_, ?_, ?_, ?_⟩ <;> rw [parseBoolValue_eq] <;> rfl

/-- Witness for C4: with `http_probe=true` the field `HTTPProbe` is true. -/
theorem parseBoolValue_spec_witness :
    (ReadConfig (fun _ _ _ => 0)
      ⟨fun k => if k = "http_probe" then some "true" else none⟩).HTTPProbe = true :=
  ((parseBoolValue_spec (fun _ _ _ => 0)
      ⟨fun k => if k = "http_probe" then some "true" else none⟩).1
    ("http_probe", false, fun c => c.HTTPProbe) (by simp [booleanKeys])).1 (by decide)

/-- C5: `ReadConfig` is a total function of the environment, and when every
key it reads is unset or empty it returns exactly the documented defaults:
port 8080, health on, basic auth off, read and write timeout 10 seconds,
image pull policy `Always`, probes 3/1/10 and 3/1/10, function port 8080,
HTTP probe off, non-root user off, empty secret mount path. -/
theorem ReadConfig_defaults (fracMul : Nat → Nat → Nat → Nat) (env : OsEnv)
    (h : ∀ k ∈ readKeys, env.vars k = none ∨ env.vars k = some "") :
    ReadConfig fracMul env = defaultConfig ∧
    defaultConfig.ReadTimeout = 10 * Second ∧ defaultConfig.WriteTimeout = 10 * Second := by
  have hk : ∀ k ∈ readKeys, env.Getenv k = "" :=
    fun k hk => Getenv_of_unset_or_empty env k (h k hk)
  refine ⟨?_, by decide, by decide⟩
  unfold ReadConfig
  simp only [readKeys, List.mem_cons, List.mem_singleton, List.not_mem_nil, or_false,
    forall_eq_or_imp, forall_eq] at hk
  obtain ⟨h1, h2, h3, h4, h5, h6, h7, h8, h9, h10, h11, h12⟩ := hk
  rw [h1, h2, h3, h4, h5, h6, h7, h8, h9, h10, h11, h12]
  rfl

/-- Witness for C5: the empty environment resolves to the defaults. -/
theorem ReadConfig_defaults_witness :
    ReadConfig (fun _ _ _ => 0) ⟨fun _ => none⟩ = defaultConfig :=
  (ReadConfig_defaults (fun _ _ _ => 0) ⟨fun _ => none⟩ (fun _ _ => Or.inl rfl)).1

/-- C10: in every environment `ReadConfig` returns `EnableHealth = true`,
`EnableBasicAuth = false`, `FunctionPort = 8080` and an empty
`SecretMountPath`; and two environments in which each of the twelve keys it
reads has the same value yield equal configurations. -/
theorem ReadConfig_independent (fracMul : Nat → Nat → Nat → Nat) (env1 env2 : OsEnv) :
    ((ReadConfig fracMul env1).EnableHealth = true ∧
      (ReadConfig fracMul env1).EnableBasicAuth = false ∧
      (ReadConfig fracMul env1).FunctionPort = 8080 ∧
      (ReadConfig fracMul env1).SecretMountPath = "") ∧
    ((∀ k ∈ readKeys, env1.Getenv k = env2.Getenv k) →
      ReadConfig fracMul env1 = ReadConfig fracMul env2) ∧
    readKeys.length = 12 ∧ readKeys.Nodup := by
  refine ⟨⟨rfl, rfl, rfl, rfl⟩, ?_, rfl, by decide⟩
  intro hk
  simp only [readKeys, List.mem_cons, List.mem_singleton, List.not_mem_nil, or_false,
    forall_eq_or_imp, forall_eq] at hk
  obtain ⟨h1, h2, h3, h4, h5, h6, h7, h8, h9, h10, h11, h12⟩ := hk
  unfold ReadConfig
  rw [h1, h2, h3, h4, h5, h6, h7, h8, h9, h10, h11, h12]

/-- Witness for C10: two environments that differ only in a variable
`ReadConfig` does not read, here `secret_mount_path`, yield equal
configurations. -/
theorem ReadConfig_independent_witness :
    ReadConfig (fun _ _ _ => 0)
        ⟨fun k => if k = "secret_mount_path" then some "/run/secrets" else none⟩ =
      ReadConfig (fun _ _ _ => 0) ⟨fun _ => none⟩ :=
  (ReadConfig_independent (fun _ _ _ => 0)
      ⟨fun k => if k = "secret_mount_path" then some "/run/secrets" else none⟩
      ⟨fun _ => none⟩).2.1 (by
    intro k hk
    simp only [readKeys, List.mem_cons, List.mem_singleton, List.not_mem_nil, or_false] at hk
    rcases hk with rfl | rfl | rfl | rfl | rfl | rfl | rfl | rfl | rfl | rfl | rfl | rfl <;> rfl)

theorem Methods_append_singleton {H : Type} (r : Router H) (rt : Route H)
    (ms : List String) :
    Router.Methods (r ++ [rt]) ms = r ++ [{ rt with methods := some ms }] := by
  simp [Router.Methods]

theorem V2_bindAndListen_router {H C E : Type} (cfg : ApiServerConfig)
    (hs : V2.ApiServerHandlers H) (r : Router H) (reads : List String)
    (decorations : List (H × C)) :
    (V2.bindAndListen cfg hs r reads decorations : Run _ H C E).router =
      r ++ (catalog cfg.EnableHealth).map (RouteEntry.bind hs.slot) := by
  cases he : cfg.EnableHealth <;>
    simp only [V2.bindAndListen, Methods_append_singleton, Router.HandleFunc, he] <;>
    simp [catalog, RouteEntry.bind, V2.ApiServerHandlers.slot, MethodGet, MethodPut, MethodPost, MethodDelete]

theorem V1_bindAndListen_router {H C E : Type} (cfg : V1.FaaSConfig)
    (hs : V1.FaaSHandlers H) (r : Router H) (reads : List String)
    (decorations : List (H × C)) :
    (V1.bindAndListen cfg hs r reads decorations : Run _ H C E).router =
      r ++ (catalog cfg.EnableHealth).map (RouteEntry.bind hs.slot) := by
  cases he : cfg.EnableHealth <;>
    simp only [V1.bindAndListen, Methods_append_singleton, Router.HandleFunc, he] <;>
    simp [catalog, RouteEntry.bind, V1.FaaSHandlers.slot, MethodGet, MethodPut, MethodPost, MethodDelete]

theorem V2_ListenAndServe_nil {H C E : Type} (Read : String → Except E C)
    (Decorate : H → C → H) (cfg : ApiServerConfig) (r : Option (Router H)) :
    V2.ListenAndServe Read Decorate { Config := cfg, Handlers := none } r =
      { handlers := none, router := routerOf r, reads := [], decorations := [],
        outcome := .returned "API handlers are missing" } := by
  cases r <;> rfl

theorem V2_ListenAndServe_noauth {H C E : Type} (Read : String → Except E C)
    (Decorate : H → C → H) (cfg : ApiServerConfig) (hs : V2.ApiServerHandlers H)
    (r : Option (Router H)) (ha : cfg.EnableBasicAuth = false) :
    V2.ListenAndServe Read Decorate { Config := cfg, Handlers := some hs } r =
      V2.bindAndListen cfg hs (routerOf r) [] [] := by
  cases r <;> simp [V2.ListenAndServe, routerOf, ha]

theorem V2_ListenAndServe_fatal {H C E : Type} (Read : String → Except E C)
    (Decorate : H → C → H) (cfg : ApiServerConfig) (hs : V2.ApiServerHandlers H)
    (r : Option (Router H)) (err : E) (ha : cfg.EnableBasicAuth = true)
    (hr : Read cfg.SecretMountPath = .error err) :
    V2.ListenAndServe Read Decorate { Config := cfg, Handlers := some hs } r =
      { handlers := some hs, router := routerOf r, reads := [cfg.SecretMountPath],
        decorations := [], outcome := .fatal err } := by
  cases r <;> simp [V2.ListenAndServe, routerOf, ha, hr]

theorem V2_ListenAndServe_auth {H C E : Type} (Read : String → Except E C)
    (Decorate : H → C → H) (cfg : ApiServerConfig) (hs : V2.ApiServerHandlers H)
    (r : Option (Router H)) (c : C) (ha : cfg.EnableBasicAuth = true)
    (hr : Read cfg.SecretMountPath = .ok c) :
    V2.ListenAndServe Read Decorate { Config := cfg, Handlers := some hs } r =
      V2.bindAndListen cfg
        { hs with
          FunctionReader := Decorate hs.FunctionReader c
          DeployHandler := Decorate hs.DeployHandler c
          DeleteHandler := Decorate hs.DeleteHandler c
          UpdateHandler := Decorate hs.UpdateHandler c
          ReplicaReader := Decorate hs.ReplicaReader c
          ReplicaUpdater := Decorate hs.ReplicaUpdater c
          InfoHandler := Decorate hs.InfoHandler c
          SecretHandler := Decorate hs.SecretHandler c }
        (routerOf r) [cfg.SecretMountPath]
        (protectedSlots.map fun sl => (hs.slot sl, c)) := by
  cases r <;>
    simp [V2.ListenAndServe, routerOf, ha, hr, protectedSlots, V2.ApiServerHandlers.slot]

theorem V1_Serve_noauth {H C E : Type} (Read : String → Except E C)
    (Decorate : H → C → H) (cfg : V1.FaaSConfig) (hs : V1.FaaSHandlers H)
    (r : Router H) (ha : cfg.EnableBasicAuth = false) :
    V1.Serve Read Decorate (some hs) (some cfg) r = V1.bindAndListen cfg hs r [] [] := by
  simp [V1.Serve, ha]

theorem V1_Serve_fatal {H C E : Type} (Read : String → Except E C)
    (Decorate : H → C → H) (cfg : V1.FaaSConfig) (handlers : Option (V1.FaaSHandlers H))
    (r : Router H) (err : E) (ha : cfg.EnableBasicAuth = true)
    (hr : Read cfg.SecretMountPath = .error err) :
    V1.Serve Read Decorate handlers (some cfg) r =
      { handlers := handlers, router := r, reads := [cfg.SecretMountPath],
        decorations := [], outcome := .fatal err } := by
  simp [V1.Serve, ha, hr]

theorem V1_Serve_auth {H C E : Type} (Read : String → Except E C)
    (Decorate : H → C → H) (cfg : V1.FaaSConfig) (hs : V1.FaaSHandlers H)
    (r : Router H) (c : C) (ha : cfg.EnableBasicAuth = true)
    (hr : Read cfg.SecretMountPath = .ok c) :
    V1.Serve Read Decorate (some hs) (some cfg) r =
      V1.bindAndListen cfg
        { hs with
          FunctionReader := Decorate hs.FunctionReader c
          DeployHandler := Decorate hs.DeployHandler c
          DeleteHandler := Decorate hs.DeleteHandler c
          UpdateHandler := Decorate hs.UpdateHandler c
          ReplicaReader := Decorate hs.ReplicaReader c
          ReplicaUpdater := Decorate hs.ReplicaUpdater c
          InfoHandler := Decorate hs.InfoHandler c
          SecretHandler := Decorate hs.SecretHandler c }
        r [cfg.SecretMountPath]
        (protectedSlots.map fun sl => (hs.slot sl, c)) := by
  simp [V1.Serve, ha, hr, protectedSlots, V1.FaaSHandlers.slot]

theorem mem_protectedSlots (sl : Slot) :
    sl ∈ protectedSlots ↔ sl ≠ .FunctionProxy ∧ sl ≠ .Health := by
  cases sl <;> simp [protectedSlots]

/-- C6, as amended: for a non-nil handler set, when start-up gets past the
credential step (basic auth is off, or the credential read succeeds), the
bindings `ListenAndServe` (v2) and `Serve` (v1) add to the router are exactly
the catalog in order, each bound to the resulting handler of its role, with
`/healthz` last exactly when `EnableHealth` is true; when basic auth is on and
the credential read fails, no binding is added.  No two entries of the catalog
with the same path pattern have overlapping method sets. -/
theorem routes_registered {H C E : Type} (Read : String → Except E C) (Decorate : H → C → H)
    (cfg : ApiServerConfig) (hs : V2.ApiServerHandlers H) (r : Option (Router H))
    (cfg1 : V1.FaaSConfig) (hs1 : V1.FaaSHandlers H) (r1 : Router H) :
    ((cfg.EnableBasicAuth = false ∨ ∃ c, Read cfg.SecretMountPath = .ok c) →
      ∃ hs', (V2.ListenAndServe Read Decorate ⟨cfg, some hs⟩ r).handlers = some hs' ∧
        (V2.ListenAndServe Read Decorate ⟨cfg, some hs⟩ r).router =
          routerOf r ++ (catalog cfg.EnableHealth).map (RouteEntry.bind hs'.slot)) ∧
    ((cfg.EnableBasicAuth = true ∧ ∃ e, Read cfg.SecretMountPath = .error e) →
      (V2.ListenAndServe Read Decorate ⟨cfg, some hs⟩ r).router = routerOf r) ∧
    ((cfg1.EnableBasicAuth = false ∨ ∃ c, Read cfg1.SecretMountPath = .ok c) →
      ∃ hs', (V1.Serve Read Decorate (some hs1) (some cfg1) r1).handlers = some hs' ∧
        (V1.Serve Read Decorate (some hs1) (some cfg1) r1).router =
          r1 ++ (catalog cfg1.EnableHealth).map (RouteEntry.bind hs'.slot)) ∧
    ((cfg1.EnableBasicAuth = true ∧ ∃ e, Read cfg1.SecretMountPath = .error e) →
      (V1.Serve Read Decorate (some hs1) (some cfg1) r1).router = r1) ∧
    (catalog false).length = 11 ∧
    catalog true = catalog false ++ [⟨"/healthz", some ["GET"], .Health⟩] ∧
    methodDisjoint (catalog false) = true ∧ methodDisjoint (catalog true) = true := by
  refine ⟨?_, ?_, ?_, ?_, rfl, rfl, by decide, by decide⟩
  · intro h
    by_cases ha : cfg.EnableBasicAuth = true
    · rcases h with h | ⟨c, hc⟩
      · rw [h] at ha; cases ha
      · rw [V2_ListenAndServe_auth Read Decorate cfg hs r c ha hc]
        exact ⟨_, rfl, V2_bindAndListen_router _ _ _ _ _⟩
    · have ha : cfg.EnableBasicAuth = false := by simpa using ha
      rw [V2_ListenAndServe_noauth Read Decorate cfg hs r ha]
      exact ⟨_, rfl, V2_bindAndListen_router _ _ _ _ _⟩
  · rintro ⟨ha, e, he⟩
    rw [V2_ListenAndServe_fatal Read Decorate cfg hs r e ha he]
  · intro h
    by_cases ha : cfg1.EnableBasicAuth = true
    · rcases h with h | ⟨c, hc⟩
      · rw [h] at ha; cases ha
      · rw [V1_Serve_auth Read Decorate cfg1 hs1 r1 c ha hc]
        exact ⟨_, rfl, V1_bindAndListen_router _ _ _ _ _⟩
    · have ha : cfg1.EnableBasicAuth = false := by simpa using ha
      rw [V1_Serve_noauth Read Decorate cfg1 hs1 r1 ha]
      exact ⟨_, rfl, V1_bindAndListen_router _ _ _ _ _⟩
  · rintro ⟨ha, e, he⟩
    rw [V1_Serve_fatal Read Decorate cfg1 (some hs1) r1 e ha he]

/-- C7: for a non-nil handler set, in v2 `ListenAndServe` and in v1 `Serve`:
with basic auth on and a credential read that returns `c`, each of the eight
protected slots becomes `DecorateWithBasicAuth` of its original and `c`, by
one call per slot, and `FunctionProxy` and `Health` keep their originals;
with basic auth off all ten slots are unchanged, and no credential is read.
In both cases the routes are bound to the resulting slots. -/
theorem decoration_frame {H C E : Type} (Read : String → Except E C) (Decorate : H → C → H)
    (cfg : ApiServerConfig) (hs : V2.ApiServerHandlers H) (r : Option (Router H))
    (cfg1 : V1.FaaSConfig) (hs1 : V1.FaaSHandlers H) (r1 : Router H) :
    (∀ c, cfg.EnableBasicAuth = true → Read cfg.SecretMountPath = .ok c →
      ∃ hs', (V2.ListenAndServe Read Decorate ⟨cfg, some hs⟩ r).handlers = some hs' ∧
        (∀ sl, hs'.slot sl =
          if sl ∈ protectedSlots then Decorate (hs.slot sl) c else hs.slot sl) ∧
        (V2.ListenAndServe Read Decorate ⟨cfg, some hs⟩ r).decorations =
          protectedSlots.map (fun sl => (hs.slot sl, c)) ∧
        (V2.ListenAndServe Read Decorate ⟨cfg, some hs⟩ r).reads = [cfg.SecretMountPath] ∧
        (V2.ListenAndServe Read Decorate ⟨cfg, some hs⟩ r).router =
          routerOf r ++ (catalog cfg.EnableHealth).map (RouteEntry.bind hs'.slot)) ∧
    (cfg.EnableBasicAuth = false →
      (V2.ListenAndServe Read Decorate ⟨cfg, some hs⟩ r).handlers = some hs ∧
      (V2.ListenAndServe Read Decorate ⟨cfg, some hs⟩ r).decorations = [] ∧
      (V2.ListenAndServe Read Decorate ⟨cfg, some hs⟩ r).reads = [] ∧
      (V2.ListenAndServe Read Decorate ⟨cfg, some hs⟩ r).router =
        routerOf r ++ (catalog cfg.EnableHealth).map (RouteEntry.bind hs.slot)) ∧
    (∀ c, cfg1.EnableBasicAuth = true → Read cfg1.SecretMountPath = .ok c →
      ∃ hs', (V1.Serve Read Decorate (some hs1) (some cfg1) r1).handlers = some hs' ∧
        (∀ sl, hs'.slot sl =
          if sl ∈ protectedSlots then Decorate (hs1.slot sl) c else hs1.slot sl) ∧
        (V1.Serve Read Decorate (some hs1) (some cfg1) r1).decorations =
          protectedSlots.map (fun sl => (hs1.slot sl, c)) ∧
        (V1.Serve Read Decorate (some hs1) (some cfg1) r1).reads = [cfg1.SecretMountPath] ∧
        (V1.Serve Read Decorate (some hs1) (some cfg1) r1).router =
          r1 ++ (catalog cfg1.EnableHealth).map (RouteEntry.bind hs'.slot)) ∧
    (cfg1.EnableBasicAuth = false →
      (V1.Serve Read Decorate (some hs1) (some cfg1) r1).handlers = some hs1 ∧
      (V1.Serve Read Decorate (some hs1) (some cfg1) r1).decorations = [] ∧
      (V1.Serve Read Decorate (some hs1) (some cfg1) r1).reads = [] ∧
      (V1.Serve Read Decorate (some hs1) (some cfg1) r1).router =
        r1 ++ (catalog cfg1.EnableHealth).map (RouteEntry.bind hs1.slot)) ∧
    protectedSlots.length = 8 ∧ protectedSlots.Nodup ∧
    (∀ sl, sl ∈ protectedSlots ↔ sl ≠ .FunctionProxy ∧ sl ≠ .Health) := by
  refine ⟨?_, ?_, ?_, ?_, rfl, by decide, mem_protectedSlots⟩
  · intro c ha hc
    rw [V2_ListenAndServe_auth Read Decorate cfg hs r c ha hc]
    refine ⟨_, rfl, ?_, rfl, rfl, V2_bindAndListen_router _ _ _ _ _⟩
    intro sl
    cases sl <;> simp [protectedSlots, V2.ApiServerHandlers.slot]
  · intro ha
    rw [V2_ListenAndServe_noauth Read Decorate cfg hs r ha]
    exact ⟨rfl, rfl, rfl, V2_bindAndListen_router _ _ _ _ _⟩
  · intro c ha hc
    rw [V1_Serve_auth Read Decorate cfg1 hs1 r1 c ha hc]
    refine ⟨_, rfl, ?_, rfl, rfl, V1_bindAndListen_router _ _ _ _ _⟩
    intro sl
    cases sl <;> simp [protectedSlots, V1.FaaSHandlers.slot]
  · intro ha
    rw [V1_Serve_noauth Read Decorate cfg1 hs1 r1 ha]
    exact ⟨rfl, rfl, rfl, V1_bindAndListen_router _ _ _ _ _⟩

/-- C8: with basic auth on, a credential read that returns an error ends the
start-up in the fatal outcome with no handler decorated, no route registered
and no server listening, in v2 `ListenAndServe` with a non-nil handler set
and in v1 `Serve` with any handler set. -/
theorem credential_failure_fatal {H C E : Type} (Read : String → Except E C)
    (Decorate : H → C → H)
    (cfg : ApiServerConfig) (hs : V2.ApiServerHandlers H) (r : Option (Router H))
    (cfg1 : V1.FaaSConfig) (handlers1 : Option (V1.FaaSHandlers H)) (r1 : Router H) :
    (∀ e, cfg.EnableBasicAuth = true → Read cfg.SecretMountPath = .error e →
      (V2.ListenAndServe Read Decorate ⟨cfg, some hs⟩ r).outcome = .fatal e ∧
      (V2.ListenAndServe Read Decorate ⟨cfg, some hs⟩ r).handlers = some hs ∧
      (V2.ListenAndServe Read Decorate ⟨cfg, some hs⟩ r).decorations = [] ∧
      (V2.ListenAndServe Read Decorate ⟨cfg, some hs⟩ r).router = routerOf r ∧
      ∀ s, (V2.ListenAndServe Read Decorate ⟨cfg, some hs⟩ r).outcome ≠ .listening s) ∧
    (∀ e, cfg1.EnableBasicAuth = true → Read cfg1.SecretMountPath = .error e →
      (V1.Serve Read Decorate handlers1 (some cfg1) r1).outcome = .fatal e ∧
      (V1.Serve Read Decorate handlers1 (some cfg1) r1).handlers = handlers1 ∧
      (V1.Serve Read Decorate handlers1 (some cfg1) r1).decorations = [] ∧
      (V1.Serve Read Decorate handlers1 (some cfg1) r1).router = r1 ∧
      ∀ s, (V1.Serve Read Decorate handlers1 (some cfg1) r1).outcome ≠ .listening s) := by
  refine ⟨?_, ?_⟩
  · intro e ha he
    rw [V2_ListenAndServe_fatal Read Decorate cfg hs r e ha he]
    exact ⟨rfl, rfl, rfl, rfl, fun s h => by cases h⟩
  · intro e ha he
    rw [V1_Serve_fatal Read Decorate cfg1 handlers1 r1 e ha he]
    exact ⟨rfl, rfl, rfl, rfl, fun s h => by cases h⟩

/-- C9: v2 `ListenAndServe` on a server whose `Handlers` is nil returns the
error `API handlers are missing`, for every configuration and every router
argument, with no credential read, no route registered and no server
listening; with non-nil `Handlers` no error is returned by that check: the
start-up ends in the fatal outcome or in the listen call. -/
theorem missing_handlers {H C E : Type} (Read : String → Except E C) (Decorate : H → C → H)
    (cfg : ApiServerConfig) (r : Option (Router H)) :
    ((V2.ListenAndServe Read Decorate ⟨cfg, none⟩ r).outcome =
        .returned "API handlers are missing" ∧
      (V2.ListenAndServe Read Decorate ⟨cfg, none⟩ r).reads = [] ∧
      (V2.ListenAndServe Read Decorate ⟨cfg, none⟩ r).decorations = [] ∧
      (V2.ListenAndServe Read Decorate ⟨cfg, none⟩ r).router = routerOf r ∧
      (V2.ListenAndServe Read Decorate ⟨cfg, none⟩ r).handlers = none) ∧
    (∀ hs : V2.ApiServerHandlers H,
      (∃ e, (V2.ListenAndServe Read Decorate ⟨cfg, some hs⟩ r).outcome = .fatal e) ∨
      (∃ s, (V2.ListenAndServe Read Decorate ⟨cfg, some hs⟩ r).outcome = .listening s)) ∧
    (∀ (hs : V2.ApiServerHandlers H) (err : String),
      (V2.ListenAndServe Read Decorate ⟨cfg, some hs⟩ r).outcome ≠ .returned err) := by
  have hcases : ∀ hs : V2.ApiServerHandlers H,
      (∃ e, (V2.ListenAndServe Read Decorate ⟨cfg, some hs⟩ r).outcome = .fatal e) ∨
      (∃ s, (V2.ListenAndServe Read Decorate ⟨cfg, some hs⟩ r).outcome = .listening s) := by
    intro hs
    by_cases ha : cfg.EnableBasicAuth = true
    · cases hr : Read cfg.SecretMountPath with
      | error e =>
        rw [V2_ListenAndServe_fatal Read Decorate cfg hs r e ha hr]
        exact Or.inl ⟨e, rfl⟩
      | ok c =>
        rw [V2_ListenAndServe_auth Read Decorate cfg hs r c ha hr]
        exact Or.inr ⟨_, rfl⟩
    · have ha : cfg.EnableBasicAuth = false := by simpa using ha
      rw [V2_ListenAndServe_noauth Read Decorate cfg hs r ha]
      exact Or.inr ⟨_, rfl⟩
  refine ⟨?_, hcases, ?_⟩
  · rw [V2_ListenAndServe_nil]
    exact ⟨rfl, rfl, rfl, rfl, rfl⟩
  · intro hs err h
    rcases hcases hs with ⟨e, he⟩ | ⟨s, hs'⟩
    · rw [he] at h; cases h
    · rw [hs'] at h; cases h

/-- C6, counterexample: with basic auth on and a credential reader that
fails, `ListenAndServe` and `Serve`, given a non-nil handler set and an empty
router, register no binding at all, while the catalog for this configuration
has twelve entries. -/
theorem routes_registered_counterexample :
    (V2.ListenAndServe readFails sampleDecorate ⟨authConfig, some sampleHandlers⟩ none).router
      = [] ∧
    (V1.Serve readFails sampleDecorate (some sampleFaaSHandlers) (some authFaaSConfig) []).router
      = [] ∧
    (catalog authConfig.EnableHealth).length = 12 ∧
    (catalog authFaaSConfig.EnableHealth).length = 12 ∧
    (V2.ListenAndServe readFails sampleDecorate ⟨authConfig, some sampleHandlers⟩ none).router
      ≠ (catalog authConfig.EnableHealth).map (RouteEntry.bind sampleHandlers.slot) ∧
    (V1.Serve readFails sampleDecorate (some sampleFaaSHandlers) (some authFaaSConfig) []).router
      ≠ (catalog authFaaSConfig.EnableHealth).map (RouteEntry.bind sampleFaaSHandlers.slot) := by
  refine ⟨rfl, rfl, rfl, rfl, ?_, ?_⟩
  · intro h
    have := congrArg List.length h
    revert this
    decide
  · intro h
    have := congrArg List.length h
    revert this
    decide

/-- Witness for C6 as amended: with basic auth off, `ListenAndServe` on a nil
router and `Serve` on an empty router register twelve bindings. -/
theorem routes_registered_witness :
    (V2.ListenAndServe readFails sampleDecorate ⟨defaultConfig, some sampleHandlers⟩
      none).router.length = 12 ∧
    (V1.Serve readFails sampleDecorate (some sampleFaaSHandlers) (some openFaaSConfig)
      []).router.length = 12 := by
  have h := routes_registered readFails sampleDecorate defaultConfig sampleHandlers none
    openFaaSConfig sampleFaaSHandlers []
  obtain ⟨hs', -, h2⟩ := h.1 (Or.inl rfl)
  obtain ⟨hs1', -, h4⟩ := h.2.2.1 (Or.inl rfl)
  rw [h2, h4]
  exact ⟨rfl, rfl⟩

/-- Witness for C7: with basic auth on and a credential reader that succeeds,
the credentials are read once, from the configured mount path. -/
theorem decoration_frame_witness :
    (V2.ListenAndServe readSucceeds sampleDecorate ⟨authConfig, some sampleHandlers⟩
      none).reads = ["/var/secrets"] ∧
    (V1.Serve readSucceeds sampleDecorate (some sampleFaaSHandlers) (some openFaaSConfig)
      []).reads = [] := by
  have h := decoration_frame readSucceeds sampleDecorate authConfig sampleHandlers none
    openFaaSConfig sampleFaaSHandlers []
  obtain ⟨hs', -, -, -, hreads, -⟩ := h.1 ("admin", "password") rfl rfl
  exact ⟨hreads, (h.2.2.2.1 rfl).2.2.1⟩

/-- Witness for C8: with basic auth on and a credential reader that fails,
both start-ups end in the fatal outcome. -/
theorem credential_failure_fatal_witness :
    (V2.ListenAndServe readFails sampleDecorate ⟨authConfig, some sampleHandlers⟩
      none).outcome = .fatal "unable to load basic-auth-user" ∧
    (V1.Serve readFails sampleDecorate (some sampleFaaSHandlers) (some authFaaSConfig)
      []).outcome = .fatal "unable to load basic-auth-user" :=
  ⟨((credential_failure_fatal readFails sampleDecorate authConfig sampleHandlers none
      authFaaSConfig (some sampleFaaSHandlers) []).1 _ rfl rfl).1,
   ((credential_failure_fatal readFails sampleDecorate authConfig sampleHandlers none
      authFaaSConfig (some sampleFaaSHandlers) []).2 _ rfl rfl).1⟩

/-- Witness for C9: on a server with nil `Handlers`, basic auth on and a
credential reader that fails, the error is returned and nothing is read. -/
theorem missing_handlers_witness :
    (V2.ListenAndServe readFails sampleDecorate
      (⟨authConfig, none⟩ : V2.ApiServer String) none).outcome =
        .returned "API handlers are missing" ∧
    (V2.ListenAndServe readFails sampleDecorate
      (⟨authConfig, none⟩ : V2.ApiServer String) none).reads = [] :=
  ⟨(missing_handlers readFails sampleDecorate authConfig none).1.1,
   (missing_handlers readFails sampleDecorate authConfig none).1.2.1⟩

end FaasProvider
